import Mathlib

/-!
Verification development for the `dsjob` command-line controller (src/dsjob.c).

The program is shallowly embedded: every sub-command handler becomes a pure
Lean function from the parsed argument vector and an `Engine` oracle (one
field per engine API entry point, giving the status each call would return)
to the handler's returned status together with the ordered trace of engine
calls and stderr error reports it performs.  Validation of the argument
vector is translated verbatim from the C parsing loops; `atoi`/`atof` are
modelled exactly (best-effort numeric conversion, 0 on unparseable input,
with the `atof` result represented as an exact rational).

Numeric constants mirror the engine's public header (`dsapi.h`, which is
external to this repository); only their distinctness and `DSJE_NOERROR = 0`
matter anywhere below.
-/

/-- Local validation sentinel, `#define DSJE_DSJOB_ERROR -9999` (dsjob.c:36). -/
def DSJE_DSJOB_ERROR : Int := -9999

/-- Engine success status. -/
def DSJE_NOERROR : Int := 0

/-- Engine status: no more log entries (log cursor exhausted). -/
def DSJE_NOMORE : Int := -1001

/-- Engine status: requested data not available. -/
def DSJE_NOT_AVAILABLE : Int := -1007

def DSJ_RUNNORMAL : Int := 1
def DSJ_RUNRESET : Int := 2
def DSJ_RUNVALIDATE : Int := 3

def DSJ_LOGANY : Int := 0
def DSJ_LOGINFO : Int := 1
def DSJ_LOGWARNING : Int := 2
def DSJ_LOGFATAL : Int := 3
def DSJ_LOGREJECT : Int := 4
def DSJ_LOGSTARTED : Int := 5
def DSJ_LOGRESET : Int := 6
def DSJ_LOGBATCH : Int := 7
def DSJ_LOGOTHER : Int := 8

def DSJ_PARAMTYPE_STRING : Int := 0
def DSJ_PARAMTYPE_ENCRYPTED : Int := 1
def DSJ_PARAMTYPE_INTEGER : Int := 2
def DSJ_PARAMTYPE_FLOAT : Int := 3
def DSJ_PARAMTYPE_PATHNAME : Int := 4
def DSJ_PARAMTYPE_LIST : Int := 5
def DSJ_PARAMTYPE_DATE : Int := 6
def DSJ_PARAMTYPE_TIME : Int := 7

def DSJ_JOBSTATUS : Int := 1
def DSJ_JOBCONTROLLER : Int := 2
def DSJ_JOBSTARTTIMESTAMP : Int := 3
def DSJ_JOBWAVENO : Int := 4
def DSJ_USERSTATUS : Int := 5
def DSJ_JOBLIST : Int := 6
def DSJ_STAGELIST : Int := 7
def DSJ_PARAMLIST : Int := 8
def DSJ_STAGETYPE : Int := 20
def DSJ_STAGEINROWNUM : Int := 21
def DSJ_STAGELASTERR : Int := 22
def DSJ_LINKLIST : Int := 23
def DSJ_LINKROWCOUNT : Int := 30
def DSJ_LINKLASTERR : Int := 31

def DSJ_LIMITWARN : Int := 1
def DSJ_LIMITROWS : Int := 2

/-- `#define MAX_PARAMS 10` (dsjob.c:114): capacity of `jobRun`'s `param` array. -/
def MAX_PARAMS : Nat := 10

/-- `#define MAX_MSG_LEN 4096` (dsjob.c:1039): cap on the log message read from stdin. -/
def MAX_MSG_LEN : Nat := 4096

/-- C `isspace` on the characters `atoi`/`atof` skip. -/
def isSpaceC (c : Char) : Bool :=
  c = ' ' || c = '\t' || c = '\n' || c = '\x0b' || c = '\x0c' || c = '\r'

/-- Decimal digits folded into a natural number (empty list gives 0). -/
def natOfDigits (cs : List Char) : Nat :=
  cs.foldl (fun n c => n * 10 + (c.toNat - 48)) 0

/-- C `atoi`: skip whitespace, optional sign, leading digits; 0 if no digits. -/
def atoi (s : String) : Int :=
  let cs := s.toList.dropWhile isSpaceC
  let cs1 := if cs.head? = some '-' ∨ cs.head? = some '+' then cs.tail else cs
  let m : Int := (natOfDigits (cs1.takeWhile Char.isDigit) : Int)
  if cs.head? = some '-' then -m else m

/-- Exponent part of a C `atof` literal: optional sign then leading digits. -/
def atofExpPart (l : List Char) : Int :=
  let l1 := if l.head? = some '-' ∨ l.head? = some '+' then l.tail else l
  let m : Int := (natOfDigits (l1.takeWhile Char.isDigit) : Int)
  if l.head? = some '-' then -m else m

/-- C `atof`, as the exact rational it converges to: skip whitespace, optional
sign, integer digits, optional fraction, optional exponent; 0 on unparseable
input.  (The C code narrows the result to `float`; the rounding itself is not
relevant to any claim, only the parsed value.) -/
def atofQ (s : String) : ℚ :=
  let cs0 := s.toList.dropWhile isSpaceC
  let neg : Bool := cs0.head? = some '-'
  let cs1 := if cs0.head? = some '-' ∨ cs0.head? = some '+' then cs0.tail else cs0
  let ip := cs1.takeWhile Char.isDigit
  let cs2 := cs1.dropWhile Char.isDigit
  let fp := if cs2.head? = some '.' then cs2.tail.takeWhile Char.isDigit else []
  let cs3 := if cs2.head? = some '.' then cs2.tail.dropWhile Char.isDigit else cs2
  let ex : Int :=
    if cs3.head? = some 'e' ∨ cs3.head? = some 'E' then atofExpPart cs3.tail else 0
  let mant : ℚ := (natOfDigits ip : ℚ) + (natOfDigits fp : ℚ) / ((10 : ℚ) ^ fp.length)
  let v := mant * (10 : ℚ) ^ ex
  if neg then -v else v

/-- The `DSPARAM` tagged union: the active variant is the `paramType` tag. -/
inductive DSPARAM where
  | pString (v : String)
  | pEncrypt (v : String)
  | pInt (v : Int)
  | pFloat (v : ℚ)
  | pPath (v : String)
  | pListValue (v : String)
  | pDate (v : String)
  | pTime (v : String)
  deriving DecidableEq, Repr

/-- The `switch(paramInfo.paramType)` of `setParam` (dsjob.c:145-176): build the
typed `DSPARAM` value from the declared type and the raw value text; unknown
declared types fall back to String with the raw text verbatim. -/
def makeParamValue (ty : Int) (value : String) : DSPARAM :=
  if ty = DSJ_PARAMTYPE_STRING then DSPARAM.pString value
  else if ty = DSJ_PARAMTYPE_ENCRYPTED then DSPARAM.pEncrypt value
  else if ty = DSJ_PARAMTYPE_INTEGER then DSPARAM.pInt (atoi value)
  else if ty = DSJ_PARAMTYPE_FLOAT then DSPARAM.pFloat (atofQ value)
  else if ty = DSJ_PARAMTYPE_PATHNAME then DSPARAM.pPath value
  else if ty = DSJ_PARAMTYPE_LIST then DSPARAM.pListValue value
  else if ty = DSJ_PARAMTYPE_DATE then DSPARAM.pDate value
  else if ty = DSJ_PARAMTYPE_TIME then DSPARAM.pTime value
  else DSPARAM.pString value

/-- A log entry as returned by the engine's find-first/find-next cursor. -/
structure DSLOGEVENT where
  eventId : Int
  eventType : Int
  message : String
  deriving DecidableEq, Repr

/-- One engine call or stderr error report performed by a handler, in order. -/
inductive Event where
  | openProject (ok : Bool)
  | closeProject
  | openJob (ok : Bool)
  | closeJob
  | lockJob (status : Int)
  | unlockJob
  | setJobLimit (limitType : Int) (value : Int) (status : Int)
  | getParamInfo (name : String) (status : Int)
  | setParamCall (name : String) (value : DSPARAM) (status : Int)
  | runJob (mode : Int) (status : Int)
  | waitForJob (status : Int)
  | stopJob (status : Int)
  | getProjectList (ok : Bool)
  | getProjectInfo (infoType : Int) (status : Int)
  | getJobInfo (infoType : Int) (status : Int)
  | getStageInfo (stage : String) (infoType : Int) (status : Int)
  | getLinkInfo (stage : String) (link : String) (infoType : Int) (status : Int)
  | logEvent (logType : Int) (message : String) (status : Int)
  | findFirstLog (status : Int)
  | findNextLog (status : Int)
  | getLogEntry (eventId : Int) (status : Int)
  | getNewestLogId (logType : Int) (ret : Int)
  | getLastError
  | setServerParams
  | getLastErrorMsg
  | errorReport (code : Option Int) (context : String)
  | item
  deriving DecidableEq, Repr

/-- Oracle for the engine API: the outcome each call would produce.  The log
cursor is a finite stream `logStream` followed by the terminal status
`logEndStatus` (normally `DSJE_NOMORE`). -/
structure Engine where
  openProjectOk : Bool
  openJobOk : Bool
  lastError : Int
  lastErrorMsg : Option (List String)
  lockStatus : Int
  warnLimitStatus : Int
  rowLimitStatus : Int
  paramInfoStatus : String → Int
  paramInfoType : String → Int
  setParamStatus : String → Int
  runStatus : Int
  waitStatus : Int
  stopStatus : Int
  projectList : Option (List String)
  projectInfoStatus : Int → Int
  jobInfoStatus : Int → Int
  stageInfoStatus : Int → Int
  linkInfoStatus : Int → Int
  logEventStatus : Int
  logStream : List DSLOGEVENT
  logEndStatus : Int
  getLogEntryStatus : Int
  newestLogId : Int
  stdinChars : List Char

/-- An engine in which every call succeeds (used for concrete evaluations). -/
def engOk : Engine :=
  { openProjectOk := true, openJobOk := true, lastError := 0, lastErrorMsg := none,
    lockStatus := 0, warnLimitStatus := 0, rowLimitStatus := 0,
    paramInfoStatus := fun _ => 0, paramInfoType := fun _ => 0,
    setParamStatus := fun _ => 0,
    runStatus := 0, waitStatus := 0, stopStatus := 0, projectList := some [],
    projectInfoStatus := fun _ => 0, jobInfoStatus := fun _ => 0,
    stageInfoStatus := fun _ => 0, linkInfoStatus := fun _ => 0,
    logEventStatus := 0, logStream := [], logEndStatus := DSJE_NOMORE,
    getLogEntryStatus := 0, newestLogId := 0, stdinChars := [] }

/-- Name part of a `name=value` string: `value = strchr(param, '='); *value++ = 0`. -/
def pName (p : String) : String :=
  String.mk (p.toList.takeWhile (fun c => c != '='))

/-- Value part of a `name=value` string (text after the first `=`). -/
def pValue (p : String) : String :=
  String.mk ((p.toList.dropWhile (fun c => c != '=')).drop 1)

/-- `setParam` (dsjob.c:122-183): query the declared type; on query failure
report the error and do not attempt to set; otherwise build the typed value
and submit it, reporting a failed submission. -/
def setParam (eng : Engine) (p : String) : Int × List Event :=
  let name := pName p
  let status := eng.paramInfoStatus name
  if status != DSJE_NOERROR then
    (status, [Event.getParamInfo name status,
              Event.errorReport (some status) "getting information for parameter"])
  else
    let paramData := makeParamValue (eng.paramInfoType name) (pValue p)
    let status2 := eng.setParamStatus name
    (status2,
      [Event.getParamInfo name DSJE_NOERROR, Event.setParamCall name paramData status2] ++
      (if status2 != DSJE_NOERROR then
        [Event.errorReport none "setting value of parameter"] else []))

/-- A token that enters the option loops: first char `-` (or `/` on Windows). -/
def isOptToken (s : String) : Bool :=
  match s.toList with
  | [] => false
  | c :: _ => c = '-' || c = '/'

/-- Accumulator of `jobRun`'s option loop; `params` records each stored
`-param` argument together with the array index `nParams++` it was written to. -/
structure RunAcc where
  mode : Int := DSJ_RUNNORMAL
  warningLimit : Int := -1
  rowLimit : Int := 0
  params : List (Nat × String) := []
  nParams : Nat := 0
  waitForJob : Bool := false
  deriving DecidableEq, Repr

/-- The option loop of `jobRun` (dsjob.c:205-241): consume leading option
tokens, `none` when `badOptions` would be set. -/
def parseRunLoop : List String → RunAcc → Option (RunAcc × List String)
  | [], acc => some (acc, [])
  | a :: rest, acc =>
    if isOptToken a = false then some (acc, a :: rest)
    else if a.drop 1 = "wait" then parseRunLoop rest { acc with waitForJob := true }
    else
      match rest with
      | [] => none
      | arg :: rest2 =>
        if a.drop 1 = "mode" then
          if arg = "NORMAL" then parseRunLoop rest2 { acc with mode := DSJ_RUNNORMAL }
          else if arg = "RESET" then parseRunLoop rest2 { acc with mode := DSJ_RUNRESET }
          else if arg = "VALIDATE" then parseRunLoop rest2 { acc with mode := DSJ_RUNVALIDATE }
          else none
        else if a.drop 1 = "param" then
          if arg.toList.contains '=' then
            parseRunLoop rest2 { acc with params := acc.params ++ [(acc.nParams, arg)],
                                          nParams := acc.nParams + 1 }
          else none
        else if a.drop 1 = "warn" then parseRunLoop rest2 { acc with warningLimit := atoi arg }
        else if a.drop 1 = "rows" then parseRunLoop rest2 { acc with rowLimit := atoi arg }
        else none

/-- Parsed `-run` arguments (the loop result plus the two positionals). -/
structure RunArgs where
  mode : Int
  warningLimit : Int
  rowLimit : Int
  params : List (Nat × String)
  waitForJob : Bool
  project : String
  job : String
  deriving DecidableEq, Repr

/-- Full `jobRun` argument validation: option loop then `(i+2) == argc`. -/
def parseRun (args : List String) : Option RunArgs :=
  match parseRunLoop args {} with
  | none => none
  | some (acc, rest) =>
    match rest with
    | [p, j] => some ⟨acc.mode, acc.warningLimit, acc.rowLimit, acc.params,
                      acc.waitForJob, p, j⟩
    | _ => none

/-- The parameter loop of `jobRun` (dsjob.c:294-295): call `setParam` for each
stored parameter in order while the status stays `DSJE_NOERROR`. -/
def runParams (eng : Engine) : List (Nat × String) → Int × List Event
  | [] => (DSJE_NOERROR, [])
  | (_, p) :: rest =>
    let r := setParam eng p
    if r.1 = DSJE_NOERROR then
      let r2 := runParams eng rest
      (r2.1, r.2 ++ r2.2)
    else r

/-- The post-lock body of `jobRun` (dsjob.c:281-309): limits, parameters, run,
wait, each gated on the running status. -/
def runBusiness (eng : Engine) (a : RunArgs) : Int × List Event :=
  let w : Int × List Event :=
    if 0 ≤ a.warningLimit then
      (eng.warnLimitStatus,
        [Event.setJobLimit DSJ_LIMITWARN a.warningLimit eng.warnLimitStatus] ++
        (if eng.warnLimitStatus != DSJE_NOERROR then
          [Event.errorReport none "setting warning limit"] else []))
    else (DSJE_NOERROR, [])
  let r : Int × List Event :=
    if a.rowLimit ≠ 0 ∧ w.1 = DSJE_NOERROR then
      (eng.rowLimitStatus,
        [Event.setJobLimit DSJ_LIMITROWS a.rowLimit eng.rowLimitStatus] ++
        (if eng.rowLimitStatus != DSJE_NOERROR then
          [Event.errorReport none "setting row limit"] else []))
    else (w.1, [])
  let ps : Int × List Event :=
    if r.1 = DSJE_NOERROR then runParams eng a.params else (r.1, [])
  let rn : Int × List Event :=
    if ps.1 = DSJE_NOERROR then
      (eng.runStatus,
        [Event.runJob a.mode eng.runStatus] ++
        (if eng.runStatus != DSJE_NOERROR then
          [Event.errorReport none "running job"] else []))
    else (ps.1, [])
  let wt : Int × List Event :=
    if rn.1 = DSJE_NOERROR ∧ a.waitForJob then
      (eng.waitStatus,
        [Event.waitForJob eng.waitStatus] ++
        (if eng.waitStatus != DSJE_NOERROR then
          [Event.errorReport none "waiting for job"] else []))
    else (rn.1, [])
  (wt.1, w.2 ++ r.2 ++ ps.2 ++ rn.2 ++ wt.2)

/-- `jobRun` (dsjob.c:189-317): validate, open project, open job, lock,
business logic, then unlock/close/close in unwind order. -/
def jobRun (args : List String) (eng : Engine) : Int × List Event :=
  match parseRun args with
  | none => (DSJE_DSJOB_ERROR, [])
  | some a =>
    if eng.openProjectOk = false then
      (eng.lastError, [Event.openProject false, Event.getLastError,
                       Event.errorReport none "Failed to open project"])
    else if eng.openJobOk = false then
      (eng.lastError, [Event.openProject true, Event.openJob false, Event.getLastError,
                       Event.errorReport none "Failed to open job", Event.closeProject])
    else if eng.lockStatus ≠ DSJE_NOERROR then
      (eng.lockStatus,
       [Event.openProject true, Event.openJob true, Event.lockJob eng.lockStatus,
        Event.errorReport none "Failed to lock job", Event.closeJob, Event.closeProject])
    else
      let b := runBusiness eng a
      (b.1, [Event.openProject true, Event.openJob true, Event.lockJob DSJE_NOERROR] ++
            b.2 ++ [Event.unlockJob, Event.closeJob, Event.closeProject])

/-- The open-project/open-job prologue and close-job/close-project epilogue
shared verbatim by every two-handle handler other than `jobRun`. -/
def withProjectJob (eng : Engine) (body : Int × List Event) : Int × List Event :=
  if eng.openProjectOk = false then
    (eng.lastError, [Event.openProject false, Event.getLastError,
                     Event.errorReport none "Failed to open project"])
  else if eng.openJobOk = false then
    (eng.lastError, [Event.openProject true, Event.openJob false, Event.getLastError,
                     Event.errorReport none "Failed to open job", Event.closeProject])
  else
    (body.1, [Event.openProject true, Event.openJob true] ++ body.2 ++
             [Event.closeJob, Event.closeProject])

/-- `jobStop` (dsjob.c:323-363). -/
def jobStop (args : List String) (eng : Engine) : Int × List Event :=
  match args with
  | [_, _] =>
    withProjectJob eng
      (eng.stopStatus,
        [Event.stopJob eng.stopStatus] ++
        (if eng.stopStatus != DSJE_NOERROR then
          [Event.errorReport none "stopping job"] else []))
  | _ => (DSJE_DSJOB_ERROR, [])

/-- `jobLProjects` (dsjob.c:369-386). -/
def jobLProjects (args : List String) (eng : Engine) : Int × List Event :=
  match args with
  | [] =>
    match eng.projectList with
    | none => (eng.lastError, [Event.getProjectList false, Event.getLastError])
    | some _ => (DSJE_NOERROR, [Event.getProjectList true])
  | _ => (DSJE_DSJOB_ERROR, [])

/-- `jobLJobs` (dsjob.c:392-420): opens only the project; `DSJE_NOT_AVAILABLE`
is softened to success. -/
def jobLJobs (args : List String) (eng : Engine) : Int × List Event :=
  match args with
  | [_] =>
    if eng.openProjectOk = false then
      (eng.lastError, [Event.openProject false, Event.getLastError])
    else
      let s := eng.projectInfoStatus DSJ_JOBLIST
      ((if s = DSJE_NOT_AVAILABLE then DSJE_NOERROR else s),
       [Event.openProject true, Event.getProjectInfo DSJ_JOBLIST s, Event.closeProject])
  | _ => (DSJE_DSJOB_ERROR, [])

/-- `jobLStages` (dsjob.c:426-474). -/
def jobLStages (args : List String) (eng : Engine) : Int × List Event :=
  match args with
  | [_, _] =>
    let s := eng.jobInfoStatus DSJ_STAGELIST
    withProjectJob eng
      ((if s = DSJE_NOT_AVAILABLE then DSJE_NOERROR else s),
       [Event.getJobInfo DSJ_STAGELIST s] ++
       (if s ≠ DSJE_NOT_AVAILABLE ∧ s ≠ DSJE_NOERROR then
         [Event.errorReport (some s) "getting stage list"] else []))
  | _ => (DSJE_DSJOB_ERROR, [])

/-- `jobLLinks` (dsjob.c:480-530): note the second status test is a separate
`if`, so it runs on the already-softened status. -/
def jobLLinks (args : List String) (eng : Engine) : Int × List Event :=
  match args with
  | [_, _, stage] =>
    let s := eng.stageInfoStatus DSJ_LINKLIST
    let s1 := if s = DSJE_NOT_AVAILABLE then DSJE_NOERROR else s
    withProjectJob eng
      (s1, [Event.getStageInfo stage DSJ_LINKLIST s] ++
        (if s1 ≠ DSJE_NOERROR then
          [Event.errorReport (some s1) "getting link list"] else []))
  | _ => (DSJE_DSJOB_ERROR, [])

/-- `jobJobInfo` (dsjob.c:536-652): five successive info queries, each
overwriting `status`; only the final `DSJE_NOT_AVAILABLE` is softened. -/
def jobJobInfo (args : List String) (eng : Engine) : Int × List Event :=
  match args with
  | [_, _] =>
    let s1 := eng.jobInfoStatus DSJ_JOBSTATUS
    let s2 := eng.jobInfoStatus DSJ_JOBCONTROLLER
    let s3 := eng.jobInfoStatus DSJ_JOBSTARTTIMESTAMP
    let s4 := eng.jobInfoStatus DSJ_JOBWAVENO
    let s5 := eng.jobInfoStatus DSJ_USERSTATUS
    withProjectJob eng
      ((if s5 = DSJE_NOT_AVAILABLE then DSJE_NOERROR else s5),
       [Event.getJobInfo DSJ_JOBSTATUS s1] ++
         (if s1 ≠ DSJE_NOERROR then
           [Event.errorReport (some s1) "getting job status"] else []) ++
       [Event.getJobInfo DSJ_JOBCONTROLLER s2] ++
         (if s2 ≠ DSJE_NOT_AVAILABLE ∧ s2 ≠ DSJE_NOERROR then
           [Event.errorReport (some s2) "getting job controller"] else []) ++
       [Event.getJobInfo DSJ_JOBSTARTTIMESTAMP s3] ++
         (if s3 ≠ DSJE_NOT_AVAILABLE ∧ s3 ≠ DSJE_NOERROR then
           [Event.errorReport (some s3) "getting job start time"] else []) ++
       [Event.getJobInfo DSJ_JOBWAVENO s4] ++
         (if s4 ≠ DSJE_NOERROR then
           [Event.errorReport (some s4) "getting job wave number"] else []) ++
       [Event.getJobInfo DSJ_USERSTATUS s5] ++
         (if s5 ≠ DSJE_NOT_AVAILABLE ∧ s5 ≠ DSJE_NOERROR then
           [Event.errorReport (some s5) "getting job user status"] else []))
  | _ => (DSJE_DSJOB_ERROR, [])

/-- `jobStageInfo` (dsjob.c:658-723): three successive stage queries, each
overwriting `status`; only the final `DSJE_NOT_AVAILABLE` is softened. -/
def jobStageInfo (args : List String) (eng : Engine) : Int × List Event :=
  match args with
  | [_, _, stage] =>
    let s1 := eng.stageInfoStatus DSJ_STAGETYPE
    let s2 := eng.stageInfoStatus DSJ_STAGEINROWNUM
    let s3 := eng.stageInfoStatus DSJ_STAGELASTERR
    withProjectJob eng
      ((if s3 = DSJE_NOT_AVAILABLE then DSJE_NOERROR else s3),
       [Event.getStageInfo stage DSJ_STAGETYPE s1] ++
         (if s1 ≠ DSJE_NOERROR then
           [Event.errorReport (some s1) "getting stage type"] else []) ++
       [Event.getStageInfo stage DSJ_STAGEINROWNUM s2] ++
         (if s2 ≠ DSJE_NOERROR then
           [Event.errorReport (some s2) "getting stage row number"] else []) ++
       [Event.getStageInfo stage DSJ_STAGELASTERR s3] ++
         (if s3 ≠ DSJE_NOT_AVAILABLE ∧ s3 ≠ DSJE_NOERROR then
           [Event.errorReport (some s3) "getting stage last error"] else []))
  | _ => (DSJE_DSJOB_ERROR, [])

/-- `jobLinkInfo` (dsjob.c:729-789). -/
def jobLinkInfo (args : List String) (eng : Engine) : Int × List Event :=
  match args with
  | [_, _, stage, link] =>
    let s1 := eng.linkInfoStatus DSJ_LINKROWCOUNT
    let s2 := eng.linkInfoStatus DSJ_LINKLASTERR
    withProjectJob eng
      ((if s2 = DSJE_NOT_AVAILABLE then DSJE_NOERROR else s2),
       [Event.getLinkInfo stage link DSJ_LINKROWCOUNT s1] ++
         (if s1 ≠ DSJE_NOERROR then
           [Event.errorReport (some s1) "getting link row count"] else []) ++
       [Event.getLinkInfo stage link DSJ_LINKLASTERR s2] ++
         (if s2 ≠ DSJE_NOT_AVAILABLE ∧ s2 ≠ DSJE_NOERROR then
           [Event.errorReport (some s2) "getting link last error"] else []))
  | _ => (DSJE_DSJOB_ERROR, [])

/-- `jobLParams` (dsjob.c:795-843). -/
def jobLParams (args : List String) (eng : Engine) : Int × List Event :=
  match args with
  | [_, _] =>
    let s := eng.jobInfoStatus DSJ_PARAMLIST
    withProjectJob eng
      ((if s = DSJE_NOT_AVAILABLE then DSJE_NOERROR else s),
       [Event.getJobInfo DSJ_PARAMLIST s] ++
       (if s ≠ DSJE_NOT_AVAILABLE ∧ s ≠ DSJE_NOERROR then
         [Event.errorReport (some s) "getting parameter list"] else []))
  | _ => (DSJE_DSJOB_ERROR, [])

/-- `jobParamInfo` (dsjob.c:882-978). -/
def jobParamInfo (args : List String) (eng : Engine) : Int × List Event :=
  match args with
  | [_, _, param] =>
    let s := eng.paramInfoStatus param
    withProjectJob eng
      (s, [Event.getParamInfo param s] ++
        (if s ≠ DSJE_NOERROR then
          [Event.errorReport (some s) "getting info for parameter"] else []))
  | _ => (DSJE_DSJOB_ERROR, [])

/-- C `isprint` over ASCII. -/
def isPrintC (c : Char) : Bool := 32 ≤ c.toNat && c.toNat ≤ 126

/-- The stdin read loop of `jobLog` (dsjob.c:1044-1056): collect newline or
printable characters up to `MAX_MSG_LEN`, stopping at EOF or Ctrl-d. -/
def buildMessage : List Char → Nat → List Char
  | [], _ => []
  | c :: rest, n =>
    if MAX_MSG_LEN ≤ n then []
    else if c = '\x04' then []
    else if c = '\n' || isPrintC c then c :: buildMessage rest (n + 1)
    else buildMessage rest n

/-- The option loop of `jobLog` (dsjob.c:995-1006): `-info`/`-warn` switches,
last one wins. -/
def parseLogType : List String → Int → Option (Int × List String)
  | [], ty => some (ty, [])
  | a :: rest, ty =>
    if isOptToken a = false then some (ty, a :: rest)
    else if a.drop 1 = "info" then parseLogType rest DSJ_LOGINFO
    else if a.drop 1 = "warn" then parseLogType rest DSJ_LOGWARNING
    else none

/-- `jobLog` (dsjob.c:984-1068). -/
def jobLog (args : List String) (eng : Engine) : Int × List Event :=
  match parseLogType args DSJ_LOGINFO with
  | some (ty, [_, _]) =>
    let message := String.mk (buildMessage eng.stdinChars 0)
    withProjectJob eng
      (eng.logEventStatus,
        [Event.logEvent ty message eng.logEventStatus] ++
        (if eng.logEventStatus != DSJE_NOERROR then
          [Event.errorReport none "adding log entry"] else []))
  | _ => (DSJE_DSJOB_ERROR, [])

/-- Log-type keyword table shared by `-logsum -type` and `-lognewest`. -/
def logTypeOfString (arg : String) : Option Int :=
  if arg = "INFO" then some DSJ_LOGINFO
  else if arg = "WARNING" then some DSJ_LOGWARNING
  else if arg = "FATAL" then some DSJ_LOGFATAL
  else if arg = "REJECT" then some DSJ_LOGREJECT
  else if arg = "STARTED" then some DSJ_LOGSTARTED
  else if arg = "RESET" then some DSJ_LOGRESET
  else if arg = "BATCH" then some DSJ_LOGBATCH
  else if arg = "OTHER" then some DSJ_LOGOTHER
  else none

/-- The option loop of `jobLogSum` (dsjob.c:1088-1120): every option takes a
value token; `-type` values come from the keyword table, `-max` is `atoi`. -/
def parseLogSumLoop : List String → Int → Int → Option (Int × Int × List String)
  | [], ty, maxN => some (ty, maxN, [])
  | a :: rest, ty, maxN =>
    if isOptToken a = false then some (ty, maxN, a :: rest)
    else
      match rest with
      | [] => none
      | arg :: rest2 =>
        if a.drop 1 = "type" then
          match logTypeOfString arg with
          | some t => parseLogSumLoop rest2 t maxN
          | none => none
        else if a.drop 1 = "max" then parseLogSumLoop rest2 ty (atoi arg)
        else none

/-- The find-first/find-next loop of `jobLogSum` (dsjob.c:1157-1194): one
formatted `item` per yielded entry, then the terminal status of the cursor. -/
def logSumLoop (eng : Engine) : List DSLOGEVENT → Int × List Event
  | [] => (eng.logEndStatus, [])
  | _ :: rest =>
    let st := match rest with
      | [] => eng.logEndStatus
      | _ :: _ => DSJE_NOERROR
    let r := logSumLoop eng rest
    (r.1, Event.item :: Event.findNextLog st :: r.2)

/-- `jobLogSum` (dsjob.c:1074-1204): `DSJE_NOMORE` after the loop is the
expected termination and is softened to success; anything else is reported. -/
def jobLogSum (args : List String) (eng : Engine) : Int × List Event :=
  match parseLogSumLoop args DSJ_LOGANY 0 with
  | some (_, _, [_, _]) =>
    let st0 := match eng.logStream with
      | [] => eng.logEndStatus
      | _ :: _ => DSJE_NOERROR
    let r := logSumLoop eng eng.logStream
    withProjectJob eng
      ((if r.1 = DSJE_NOMORE then DSJE_NOERROR else r.1),
       Event.findFirstLog st0 :: r.2 ++
       (if r.1 = DSJE_NOMORE then []
        else [Event.errorReport (some r.1) "getting log summary"]))
  | _ => (DSJE_DSJOB_ERROR, [])

/-- `jobLogDetail` (dsjob.c:1210-1255). -/
def jobLogDetail (args : List String) (eng : Engine) : Int × List Event :=
  match args with
  | [_, _, ev] =>
    let eventId := atoi ev
    let s := eng.getLogEntryStatus
    withProjectJob eng
      (s, [Event.getLogEntry eventId s] ++
        (if s ≠ DSJE_NOERROR then
          [Event.errorReport (some s) "getting event details"] else []))
  | _ => (DSJE_DSJOB_ERROR, [])

/-- Argument validation of `jobLogNewest` (dsjob.c:1271-1301). -/
def parseLogNewest (args : List String) : Option Int :=
  match args with
  | [_, _] => some DSJ_LOGANY
  | [_, _, t] => logTypeOfString t
  | _ => none

/-- `jobLogNewest` (dsjob.c:1261-1337): a negative id means failure; the job
and project are closed on both outcomes. -/
def jobLogNewest (args : List String) (eng : Engine) : Int × List Event :=
  match parseLogNewest args with
  | none => (DSJE_DSJOB_ERROR, [])
  | some ty =>
    withProjectJob eng
      (if eng.newestLogId < 0 then
        (eng.lastError,
         [Event.getNewestLogId ty eng.newestLogId, Event.getLastError,
          Event.errorReport (some eng.lastError) "getting event details"])
      else (DSJE_NOERROR, [Event.getNewestLogId ty eng.newestLogId]))

/-- A sub-command handler: remaining arguments and engine to status + trace. -/
def Handler := List String → Engine → Int × List Event

/-- The `MajorOption` registration table (dsjob.c:1344-1365). -/
def MajorOption : List (String × Handler) :=
  [("run", jobRun), ("stop", jobStop), ("lprojects", jobLProjects), ("ljobs", jobLJobs),
   ("lstages", jobLStages), ("llinks", jobLLinks), ("jobinfo", jobJobInfo),
   ("stageinfo", jobStageInfo), ("linkinfo", jobLinkInfo), ("lparams", jobLParams),
   ("paraminfo", jobParamInfo), ("log", jobLog), ("logsum", jobLogSum),
   ("logdetail", jobLogDetail), ("lognewest", jobLogNewest)]

/-- Observable outcome of one `main` invocation. -/
structure MainOut where
  result : Int
  usagePrinted : Bool
  listedCommands : List String
  invoked : Option String
  events : List Event
  lastErrorMsgPrinted : Bool
  deriving DecidableEq, Repr

/-- The `reportError` exit of `main` (dsjob.c:1472-1479): usage text, the list
of registered command names, and the local sentinel; nothing else happens. -/
def usageOut : MainOut :=
  { result := DSJE_DSJOB_ERROR, usagePrinted := true,
    listedCommands := MajorOption.map Prod.fst, invoked := none,
    events := [], lastErrorMsgPrinted := false }

/-- One optional global flag test of `main` (dsjob.c:1396-1430): if the head
token equals the flag, it must be followed by a value token and at least one
further token (`argc < 3` otherwise jumps to `reportError`, modelled `none`). -/
def grabFlag (flag : String) (args : List String) : Option (Option String × List String) :=
  match args with
  | [] => some (none, [])
  | a :: rest =>
    if a = flag then
      match rest with
      | [] => none
      | [_] => none
      | v :: rest2 => some (some v, rest2)
    else some (none, a :: rest)

/-- The connection context collected from the global options. -/
structure ConnCtx where
  domain : Option String
  server : Option String
  user : Option String
  password : Option String
  deriving DecidableEq, Repr

/-- The fixed-order global-option extraction of `main`: domain, server, user,
password, each checked once in that order. -/
def stripGlobals (args : List String) : Option (ConnCtx × List String) :=
  match grabFlag "-domain" args with
  | none => none
  | some (d, args1) =>
    match grabFlag "-server" args1 with
    | none => none
    | some (s, args2) =>
      match grabFlag "-user" args2 with
      | none => none
      | some (u, args3) =>
        match grabFlag "-password" args3 with
        | none => none
        | some (p, args4) => some (⟨d, s, u, p⟩, args4)

/-- `main` (dsjob.c:1374-1483): strip globals, demand an option-prefixed
sub-command token registered in `MajorOption`; on any failure produce
`usageOut`; on a match set server params, run the handler, then always query
the last recorded error message, printing it when present. -/
def mainRun (argv : List String) (eng : Engine) : MainOut :=
  if argv.length < 2 then usageOut
  else
    match stripGlobals argv.tail with
    | none => usageOut
    | some (_, rest) =>
      match rest with
      | [] => usageOut
      | cmd :: cmdArgs =>
        match cmd.toList with
        | [] => usageOut
        | c :: _ =>
          if c = '-' ∨ c = '/' then
            match MajorOption.lookup (cmd.drop 1) with
            | none => usageOut
            | some handler =>
              let r := handler cmdArgs eng
              { result := r.1, usagePrinted := false, listedCommands := [],
                invoked := some (cmd.drop 1),
                events := Event.setServerParams :: r.2 ++ [Event.getLastErrorMsg],
                lastErrorMsgPrinted := eng.lastErrorMsg.isSome }
          else usageOut

/-! ## Trace predicates for the handle-lifecycle invariant (claim C1) -/

/-- Events that open, close, lock or unlock a handle. -/
def isLifecycle : Event → Bool
  | Event.openProject _ => true
  | Event.closeProject => true
  | Event.openJob _ => true
  | Event.closeJob => true
  | Event.lockJob _ => true
  | Event.unlockJob => true
  | _ => false

/-- Business-logic events on a job: limits, parameters, run, wait. -/
def isBusiness : Event → Bool
  | Event.setJobLimit _ _ _ => true
  | Event.getParamInfo _ _ => true
  | Event.setParamCall _ _ _ => true
  | Event.runJob _ _ => true
  | Event.waitForJob _ => true
  | _ => false

/-- A failed lock attempt. -/
def isLockFail : Event → Bool
  | Event.lockJob st => st != DSJE_NOERROR
  | _ => false

/-- The handle-lifecycle invariant over one handler trace: closes match
successful opens exactly; a successful lock is unlocked exactly once, with the
unlock immediately preceding the job close; a failed lock attempt entails no
unlock and no business logic anywhere in the trace. -/
def lifecycleOk (evs : List Event) : Prop :=
  evs.count Event.closeProject = evs.count (Event.openProject true) ∧
  evs.count Event.closeJob = evs.count (Event.openJob true) ∧
  (Event.lockJob DSJE_NOERROR ∈ evs →
    evs.count Event.unlockJob = 1 ∧
    ∃ u v, evs = u ++ [Event.unlockJob, Event.closeJob] ++ v) ∧
  ((∃ e ∈ evs, isLockFail e = true) →
    evs.count Event.unlockJob = 0 ∧ ∀ e ∈ evs, isBusiness e = false)

/-- Trace fragment without lifecycle events. -/
def noLC (l : List Event) : Prop := ∀ e ∈ l, isLifecycle e = false

lemma noLC_nil : noLC ([] : List Event) := fun e he => absurd he (List.not_mem_nil e)

lemma noLC_append_iff {l1 l2 : List Event} : noLC (l1 ++ l2) ↔ noLC l1 ∧ noLC l2 :=
  List.forall_mem_append

lemma noLC_cons_iff {e : Event} {l : List Event} :
    noLC (e :: l) ↔ isLifecycle e = false ∧ noLC l :=
  List.forall_mem_cons

lemma noLC_count {l : List Event} (h : noLC l) (ev : Event)
    (hev : isLifecycle ev = true) : l.count ev = 0 := by
  rw [List.count_eq_zero]
  intro hm
  rw [h ev hm] at hev
  exact Bool.noConfusion hev

lemma noLC_not_mem {l : List Event} (h : noLC l) (ev : Event)
    (hev : isLifecycle ev = true) : ev ∉ l := by
  intro hm
  rw [h ev hm] at hev
  exact Bool.noConfusion hev

lemma isLockFail_isLifecycle (e : Event) (h : isLockFail e = true) :
    isLifecycle e = true := by
  cases e <;> simp_all [isLockFail, isLifecycle]

lemma lifecycleOk_nil : lifecycleOk [] := by
  refine ⟨rfl, rfl, ?_, ?_⟩
  · intro h; exact absurd h (List.not_mem_nil _)
  · rintro ⟨e, he, -⟩; exact absurd he (List.not_mem_nil e)

/-- Shape of a handler trace whose project open failed. -/
lemma lifecycleOk_openFail (tail : List Event) (h : noLC tail) :
    lifecycleOk (Event.openProject false :: tail) := by
  have hcP := noLC_count h Event.closeProject rfl
  have hoP := noLC_count h (Event.openProject true) rfl
  have hcJ := noLC_count h Event.closeJob rfl
  have hoJ := noLC_count h (Event.openJob true) rfl
  refine ⟨?_, ?_, ?_, ?_⟩
  · simp [List.count_cons, hcP, hoP]
  · simp [List.count_cons, hcJ, hoJ]
  · intro hmem
    exfalso
    simp only [List.mem_cons] at hmem
    rcases hmem with hmem | hmem
    · exact Event.noConfusion hmem
    · exact noLC_not_mem h (Event.lockJob DSJE_NOERROR) rfl hmem
  · rintro ⟨e, he, hef⟩
    exfalso
    simp only [List.mem_cons] at he
    rcases he with rfl | he
    · simp [isLockFail] at hef
    · exact noLC_not_mem h e (isLockFail_isLifecycle e hef) he

/-- Shape of a handler trace whose job open failed: project closed once. -/
lemma lifecycleOk_openJobFail (tail : List Event) (h : noLC tail) :
    lifecycleOk ([Event.openProject true, Event.openJob false] ++ tail ++
                 [Event.closeProject]) := by
  have hcP := noLC_count h Event.closeProject rfl
  have hoP := noLC_count h (Event.openProject true) rfl
  have hcJ := noLC_count h Event.closeJob rfl
  have hoJ := noLC_count h (Event.openJob true) rfl
  refine ⟨?_, ?_, ?_, ?_⟩
  · simp [List.count_append, List.count_cons, hcP, hoP]
  · simp [List.count_append, List.count_cons, hcJ, hoJ]
  · intro hmem
    exfalso
    simp only [List.mem_append, List.mem_cons, List.not_mem_nil, or_false] at hmem
    rcases hmem with (hmem | hmem) | hmem
    · rcases hmem with hmem | hmem <;> exact Event.noConfusion hmem
    · exact noLC_not_mem h (Event.lockJob DSJE_NOERROR) rfl hmem
    · exact Event.noConfusion hmem
  · rintro ⟨e, he, hef⟩
    exfalso
    simp only [List.mem_append, List.mem_cons, List.not_mem_nil, or_false] at he
    rcases he with (he | he) | he
    · rcases he with rfl | rfl <;> simp [isLockFail] at hef
    · exact noLC_not_mem h e (isLockFail_isLifecycle e hef) he
    · subst he; simp [isLockFail] at hef

/-- Shape of a two-handle trace where both opens succeeded and the body makes
no lifecycle calls: both handles closed exactly once. -/
lemma lifecycleOk_bothOpen (body : List Event) (hb : noLC body) :
    lifecycleOk ([Event.openProject true, Event.openJob true] ++ body ++
                 [Event.closeJob, Event.closeProject]) := by
  have hcP := noLC_count hb Event.closeProject rfl
  have hoP := noLC_count hb (Event.openProject true) rfl
  have hcJ := noLC_count hb Event.closeJob rfl
  have hoJ := noLC_count hb (Event.openJob true) rfl
  refine ⟨?_, ?_, ?_, ?_⟩
  · simp [List.count_append, List.count_cons, hcP, hoP]
  · simp [List.count_append, List.count_cons, hcJ, hoJ]
  · intro hmem
    exfalso
    simp only [List.mem_append, List.mem_cons, List.not_mem_nil, or_false] at hmem
    rcases hmem with (hmem | hmem) | hmem
    · rcases hmem with hmem | hmem <;> exact Event.noConfusion hmem
    · exact noLC_not_mem hb (Event.lockJob DSJE_NOERROR) rfl hmem
    · rcases hmem with hmem | hmem <;> exact Event.noConfusion hmem
  · rintro ⟨e, he, hef⟩
    exfalso
    simp only [List.mem_append, List.mem_cons, List.not_mem_nil, or_false] at he
    rcases he with (he | he) | he
    · rcases he with rfl | rfl <;> simp [isLockFail] at hef
    · exact noLC_not_mem hb e (isLockFail_isLifecycle e hef) he
    · rcases he with rfl | rfl <;> simp [isLockFail] at hef

/-- Shape of a project-only trace (the `ljobs` handler). -/
lemma lifecycleOk_projOnly (body : List Event) (hb : noLC body) :
    lifecycleOk ([Event.openProject true] ++ body ++ [Event.closeProject]) := by
  have hcP := noLC_count hb Event.closeProject rfl
  have hoP := noLC_count hb (Event.openProject true) rfl
  have hcJ := noLC_count hb Event.closeJob rfl
  have hoJ := noLC_count hb (Event.openJob true) rfl
  refine ⟨?_, ?_, ?_, ?_⟩
  · simp [List.count_append, List.count_cons, hcP, hoP]
  · simp [List.count_append, List.count_cons, hcJ, hoJ]
  · intro hmem
    exfalso
    simp only [List.mem_append, List.mem_cons, List.not_mem_nil, or_false] at hmem
    rcases hmem with (hmem | hmem) | hmem
    · exact Event.noConfusion hmem
    · exact noLC_not_mem hb (Event.lockJob DSJE_NOERROR) rfl hmem
    · exact Event.noConfusion hmem
  · rintro ⟨e, he, hef⟩
    exfalso
    simp only [List.mem_append, List.mem_cons, List.not_mem_nil, or_false] at he
    rcases he with (he | he) | he
    · subst he; simp [isLockFail] at hef
    · exact noLC_not_mem hb e (isLockFail_isLifecycle e hef) he
    · subst he; simp [isLockFail] at hef

/-- Any handler built on `withProjectJob` with a lifecycle-free body satisfies
the handle-lifecycle invariant. -/
lemma lifecycleOk_withProjectJob (eng : Engine) (body : Int × List Event)
    (hb : noLC body.2) : lifecycleOk (withProjectJob eng body).2 := by
  unfold withProjectJob
  split_ifs with h1 h2
  · exact lifecycleOk_openFail
      [Event.getLastError, Event.errorReport none "Failed to open project"]
      (by simp [noLC_cons_iff, noLC_nil, isLifecycle])
  · exact lifecycleOk_openJobFail
      [Event.getLastError, Event.errorReport none "Failed to open job"]
      (by simp [noLC_cons_iff, noLC_nil, isLifecycle])
  · exact lifecycleOk_bothOpen body.2 hb

/-- A trace entirely free of lifecycle events satisfies the invariant. -/
lemma lifecycleOk_of_noLC (l : List Event) (h : noLC l) : lifecycleOk l := by
  refine ⟨?_, ?_, ?_, ?_⟩
  · rw [noLC_count h Event.closeProject rfl, noLC_count h (Event.openProject true) rfl]
  · rw [noLC_count h Event.closeJob rfl, noLC_count h (Event.openJob true) rfl]
  · intro hmem
    exact absurd hmem (noLC_not_mem h (Event.lockJob DSJE_NOERROR) rfl)
  · rintro ⟨e, he, hef⟩
    exact absurd he (noLC_not_mem h e (isLockFail_isLifecycle e hef))

lemma noLC_setParam (eng : Engine) (p : String) : noLC (setParam eng p).2 := by
  dsimp only [setParam]
  split_ifs <;> simp [noLC_append_iff, noLC_cons_iff, noLC_nil, isLifecycle]

lemma noLC_runParams (eng : Engine) (ps : List (Nat × String)) :
    noLC (runParams eng ps).2 := by
  induction ps with
  | nil => exact noLC_nil
  | cons hd tl ih =>
    obtain ⟨n, p⟩ := hd
    dsimp only [runParams]
    split_ifs with h
    · rw [noLC_append_iff]
      exact ⟨noLC_setParam eng p, ih⟩
    · exact noLC_setParam eng p

lemma noLC_runBusiness (eng : Engine) (a : RunArgs) : noLC (runBusiness eng a).2 := by
  dsimp only [runBusiness]
  split_ifs <;>
    simp [noLC_append_iff, noLC_cons_iff, noLC_nil, isLifecycle, noLC_runParams]

lemma noLC_logSumLoop (eng : Engine) (l : List DSLOGEVENT) :
    noLC (logSumLoop eng l).2 := by
  induction l with
  | nil => exact noLC_nil
  | cons hd tl ih =>
    dsimp only [logSumLoop]
    rw [noLC_cons_iff, noLC_cons_iff]
    exact ⟨rfl, rfl, ih⟩

lemma c1_jobRun (args : List String) (eng : Engine) : lifecycleOk (jobRun args eng).2 := by
  rcases hpa : parseRun args with _ | a
  · simp only [jobRun, hpa]
    exact lifecycleOk_nil
  · simp only [jobRun, hpa]
    split_ifs with h1 h2 h3
    · exact lifecycleOk_openFail
        [Event.getLastError, Event.errorReport none "Failed to open project"]
        (by simp [noLC_cons_iff, noLC_nil, isLifecycle])
    · exact lifecycleOk_openJobFail
        [Event.getLastError, Event.errorReport none "Failed to open job"]
        (by simp [noLC_cons_iff, noLC_nil, isLifecycle])
    · -- lock failure: no unlock, no business logic, both handles closed
      refine ⟨?_, ?_, ?_, ?_⟩
      · simp [List.count_cons, List.count_nil]
      · simp [List.count_cons, List.count_nil]
      · intro hmem
        simp only [List.mem_cons, List.not_mem_nil, or_false] at hmem
        rcases hmem with h | h | h | h | h | h
        · exact Event.noConfusion h
        · exact Event.noConfusion h
        · exact absurd (Event.lockJob.inj h).symm h3
        · exact Event.noConfusion h
        · exact Event.noConfusion h
        · exact Event.noConfusion h
      · rintro ⟨e, he, hef⟩
        constructor
        · simp [List.count_cons, List.count_nil]
        · intro e' he'
          simp only [List.mem_cons, List.not_mem_nil, or_false] at he'
          rcases he' with rfl | rfl | rfl | rfl | rfl | rfl <;> rfl
    · -- lock success: business logic then unlock, close job, close project
      have hb := noLC_runBusiness eng a
      refine ⟨?_, ?_, ?_, ?_⟩
      · have h1 := noLC_count hb Event.closeProject rfl
        have h2 := noLC_count hb (Event.openProject true) rfl
        simp [List.count_append, List.count_cons, List.count_nil, h1, h2]
      · have h1 := noLC_count hb Event.closeJob rfl
        have h2 := noLC_count hb (Event.openJob true) rfl
        simp [List.count_append, List.count_cons, List.count_nil, h1, h2]
      · intro _
        constructor
        · have h1 := noLC_count hb Event.unlockJob rfl
          simp [List.count_append, List.count_cons, List.count_nil, h1]
        · refine ⟨[Event.openProject true, Event.openJob true,
                   Event.lockJob DSJE_NOERROR] ++ (runBusiness eng a).2,
                  [Event.closeProject], ?_⟩
          simp [List.append_assoc]
      · rintro ⟨e, he, hef⟩
        exfalso
        simp only [List.mem_append, List.mem_cons, List.not_mem_nil, or_false] at he
        rcases he with ((rfl | rfl | rfl) | he) | (rfl | rfl | rfl)
        · simp [isLockFail] at hef
        · simp [isLockFail] at hef
        · simp [isLockFail, DSJE_NOERROR] at hef
        · exact noLC_not_mem hb e (isLockFail_isLifecycle e hef) he
        · simp [isLockFail] at hef
        · simp [isLockFail] at hef
        · simp [isLockFail] at hef

lemma c1_jobStop (args : List String) (eng : Engine) :
    lifecycleOk (jobStop args eng).2 := by
  rcases args with _ | ⟨a, _ | ⟨b, _ | ⟨c, r⟩⟩⟩
  · exact lifecycleOk_nil
  · exact lifecycleOk_nil
  · apply lifecycleOk_withProjectJob
    dsimp only
    split_ifs <;> simp [noLC_append_iff, noLC_cons_iff, noLC_nil, isLifecycle]
  · exact lifecycleOk_nil

lemma c1_jobLProjects (args : List String) (eng : Engine) :
    lifecycleOk (jobLProjects args eng).2 := by
  rcases args with _ | ⟨a, r⟩
  · rcases hpl : eng.projectList with _ | l <;> simp only [jobLProjects, hpl] <;>
      exact lifecycleOk_of_noLC _ (by simp [noLC_cons_iff, noLC_nil, isLifecycle])
  · exact lifecycleOk_nil

lemma c1_jobLJobs (args : List String) (eng : Engine) :
    lifecycleOk (jobLJobs args eng).2 := by
  rcases args with _ | ⟨a, _ | ⟨b, r⟩⟩
  · exact lifecycleOk_nil
  · show lifecycleOk (jobLJobs [a] eng).2
    dsimp only [jobLJobs]
    split_ifs with h1 h2
    · exact lifecycleOk_openFail [Event.getLastError]
        (by simp [noLC_cons_iff, noLC_nil, isLifecycle])
    · exact lifecycleOk_projOnly
        [Event.getProjectInfo DSJ_JOBLIST (eng.projectInfoStatus DSJ_JOBLIST)]
        (by simp [noLC_cons_iff, noLC_nil, isLifecycle])
    · exact lifecycleOk_projOnly
        [Event.getProjectInfo DSJ_JOBLIST (eng.projectInfoStatus DSJ_JOBLIST)]
        (by simp [noLC_cons_iff, noLC_nil, isLifecycle])
  · exact lifecycleOk_nil

lemma c1_jobLStages (args : List String) (eng : Engine) :
    lifecycleOk (jobLStages args eng).2 := by
  rcases args with _ | ⟨a, _ | ⟨b, _ | ⟨c, r⟩⟩⟩
  · exact lifecycleOk_nil
  · exact lifecycleOk_nil
  · apply lifecycleOk_withProjectJob
    dsimp only
    split_ifs <;> simp [noLC_append_iff, noLC_cons_iff, noLC_nil, isLifecycle]
  · exact lifecycleOk_nil

lemma c1_jobLLinks (args : List String) (eng : Engine) :
    lifecycleOk (jobLLinks args eng).2 := by
  rcases args with _ | ⟨a, _ | ⟨b, _ | ⟨c, _ | ⟨d, r⟩⟩⟩⟩
  · exact lifecycleOk_nil
  · exact lifecycleOk_nil
  · exact lifecycleOk_nil
  · apply lifecycleOk_withProjectJob
    dsimp only
    split_ifs <;> simp [noLC_append_iff, noLC_cons_iff, noLC_nil, isLifecycle]
  · exact lifecycleOk_nil

lemma c1_jobJobInfo (args : List String) (eng : Engine) :
    lifecycleOk (jobJobInfo args eng).2 := by
  rcases args with _ | ⟨a, _ | ⟨b, _ | ⟨c, r⟩⟩⟩
  · exact lifecycleOk_nil
  · exact lifecycleOk_nil
  · apply lifecycleOk_withProjectJob
    dsimp only
    split_ifs <;> simp [noLC_append_iff, noLC_cons_iff, noLC_nil, isLifecycle]
  · exact lifecycleOk_nil

lemma c1_jobStageInfo (args : List String) (eng : Engine) :
    lifecycleOk (jobStageInfo args eng).2 := by
  rcases args with _ | ⟨a, _ | ⟨b, _ | ⟨c, _ | ⟨d, r⟩⟩⟩⟩
  · exact lifecycleOk_nil
  · exact lifecycleOk_nil
  · exact lifecycleOk_nil
  · apply lifecycleOk_withProjectJob
    dsimp only
    split_ifs <;> simp [noLC_append_iff, noLC_cons_iff, noLC_nil, isLifecycle]
  · exact lifecycleOk_nil

lemma c1_jobLinkInfo (args : List String) (eng : Engine) :
    lifecycleOk (jobLinkInfo args eng).2 := by
  rcases args with _ | ⟨a, _ | ⟨b, _ | ⟨c, _ | ⟨d, _ | ⟨e, r⟩⟩⟩⟩⟩
  · exact lifecycleOk_nil
  · exact lifecycleOk_nil
  · exact lifecycleOk_nil
  · exact lifecycleOk_nil
  · apply lifecycleOk_withProjectJob
    dsimp only
    split_ifs <;> simp [noLC_append_iff, noLC_cons_iff, noLC_nil, isLifecycle]
  · exact lifecycleOk_nil

lemma c1_jobLParams (args : List String) (eng : Engine) :
    lifecycleOk (jobLParams args eng).2 := by
  rcases args with _ | ⟨a, _ | ⟨b, _ | ⟨c, r⟩⟩⟩
  · exact lifecycleOk_nil
  · exact lifecycleOk_nil
  · apply lifecycleOk_withProjectJob
    dsimp only
    split_ifs <;> simp [noLC_append_iff, noLC_cons_iff, noLC_nil, isLifecycle]
  · exact lifecycleOk_nil

lemma c1_jobParamInfo (args : List String) (eng : Engine) :
    lifecycleOk (jobParamInfo args eng).2 := by
  rcases args with _ | ⟨a, _ | ⟨b, _ | ⟨c, _ | ⟨d, r⟩⟩⟩⟩
  · exact lifecycleOk_nil
  · exact lifecycleOk_nil
  · exact lifecycleOk_nil
  · apply lifecycleOk_withProjectJob
    dsimp only
    split_ifs <;> simp [noLC_append_iff, noLC_cons_iff, noLC_nil, isLifecycle]
  · exact lifecycleOk_nil

lemma c1_jobLog (args : List String) (eng : Engine) :
    lifecycleOk (jobLog args eng).2 := by
  rcases h : parseLogType args DSJ_LOGINFO with _ | ⟨ty, rest⟩
  · simp only [jobLog, h]
    exact lifecycleOk_nil
  · rcases rest with _ | ⟨x, _ | ⟨y, _ | ⟨z, r⟩⟩⟩ <;> simp only [jobLog, h]
    · exact lifecycleOk_nil
    · exact lifecycleOk_nil
    · apply lifecycleOk_withProjectJob
      dsimp only
      split_ifs <;> simp [noLC_append_iff, noLC_cons_iff, noLC_nil, isLifecycle]
    · exact lifecycleOk_nil

lemma c1_jobLogSum (args : List String) (eng : Engine) :
    lifecycleOk (jobLogSum args eng).2 := by
  rcases h : parseLogSumLoop args DSJ_LOGANY 0 with _ | ⟨ty, maxN, rest⟩
  · simp only [jobLogSum, h]
    exact lifecycleOk_nil
  · rcases rest with _ | ⟨x, _ | ⟨y, _ | ⟨z, r⟩⟩⟩ <;> simp only [jobLogSum, h]
    · exact lifecycleOk_nil
    · exact lifecycleOk_nil
    · apply lifecycleOk_withProjectJob
      dsimp only
      rw [noLC_append_iff, noLC_cons_iff]
      refine ⟨⟨rfl, noLC_logSumLoop eng eng.logStream⟩, ?_⟩
      split_ifs <;> simp [noLC_cons_iff, noLC_nil, isLifecycle]
    · exact lifecycleOk_nil

lemma c1_jobLogDetail (args : List String) (eng : Engine) :
    lifecycleOk (jobLogDetail args eng).2 := by
  rcases args with _ | ⟨a, _ | ⟨b, _ | ⟨c, _ | ⟨d, r⟩⟩⟩⟩
  · exact lifecycleOk_nil
  · exact lifecycleOk_nil
  · exact lifecycleOk_nil
  · apply lifecycleOk_withProjectJob
    dsimp only
    split_ifs <;> simp [noLC_append_iff, noLC_cons_iff, noLC_nil, isLifecycle]
  · exact lifecycleOk_nil

lemma c1_jobLogNewest (args : List String) (eng : Engine) :
    lifecycleOk (jobLogNewest args eng).2 := by
  rcases h : parseLogNewest args with _ | ty
  · simp only [jobLogNewest, h]
    exact lifecycleOk_nil
  · simp only [jobLogNewest, h]
    apply lifecycleOk_withProjectJob
    split_ifs <;> simp [noLC_append_iff, noLC_cons_iff, noLC_nil, isLifecycle]

/-- C1: for every registered sub-command and every argument vector and engine
behaviour, the handler trace satisfies the handle-lifecycle invariant: each
successfully opened project/job handle is closed exactly once on every exit
path, a successfully locked job is unlocked exactly once and immediately
before its close, and a failed lock attempt entails no unlock and no
business-logic call (limits, parameters, run, wait) anywhere in the trace. -/
theorem c1_handle_lifecycle :
    ∀ nh ∈ MajorOption, ∀ (args : List String) (eng : Engine),
      lifecycleOk ((nh.2) args eng).2 := by
  intro nh hnh args eng
  simp only [MajorOption, List.mem_cons, List.not_mem_nil, or_false] at hnh
  rcases hnh with rfl | rfl | rfl | rfl | rfl | rfl | rfl | rfl | rfl | rfl | rfl |
    rfl | rfl | rfl | rfl
  · exact c1_jobRun args eng
  · exact c1_jobStop args eng
  · exact c1_jobLProjects args eng
  · exact c1_jobLJobs args eng
  · exact c1_jobLStages args eng
  · exact c1_jobLLinks args eng
  · exact c1_jobJobInfo args eng
  · exact c1_jobStageInfo args eng
  · exact c1_jobLinkInfo args eng
  · exact c1_jobLParams args eng
  · exact c1_jobParamInfo args eng
  · exact c1_jobLog args eng
  · exact c1_jobLogSum args eng
  · exact c1_jobLogDetail args eng
  · exact c1_jobLogNewest args eng

/-- Witness for C1 at the `run` handler on a concrete invocation. -/
theorem c1_handle_lifecycle_witness : lifecycleOk (jobRun ["proj", "job"] engOk).2 := by
  have h : ("run", jobRun) ∈ MajorOption := by simp [MajorOption]
  exact c1_handle_lifecycle ("run", jobRun) h ["proj", "job"] engOk

/-- C2: whenever the sub-command token is absent, lacks the option-prefix
character, or matches no registered name, or a global option flag is present
without its value token, `main` prints the usage text, lists every registered
sub-command name, and returns the fixed local sentinel `DSJE_DSJOB_ERROR`
(-9999) without invoking any handler and without a single engine call; and
every invocation either ends that way or dispatches to a registered handler. -/
theorem c2_dispatcher_validation :
    ∀ (argv : List String) (eng : Engine),
      (argv.length < 2 ∨ stripGlobals argv.tail = none → mainRun argv eng = usageOut) ∧
      (∀ (g : ConnCtx) (cmd : String) (tl : List String),
        stripGlobals argv.tail = some (g, cmd :: tl) → ¬ argv.length < 2 →
        ((∀ c, cmd.toList.head? = some c → ¬(c = '-' ∨ c = '/')) →
          mainRun argv eng = usageOut) ∧
        ((MajorOption.lookup (cmd.drop 1)).isNone = true →
          mainRun argv eng = usageOut)) ∧
      (mainRun argv eng = usageOut ∨
        ∃ nm, (mainRun argv eng).invoked = some nm ∧
              (MajorOption.lookup nm).isSome = true) ∧
      usageOut.result = DSJE_DSJOB_ERROR ∧ usageOut.usagePrinted = true ∧
      usageOut.listedCommands = MajorOption.map Prod.fst ∧
      usageOut.invoked = none ∧ usageOut.events = [] := by
  intro argv eng
  refine ⟨?_, ?_, ?_, rfl, rfl, rfl, rfl, rfl⟩
  · rintro (h | h)
    · simp [mainRun, h]
    · by_cases hl : argv.length < 2
      · simp [mainRun, hl]
      · simp [mainRun, hl, h]
  · intro g cmd tl hstrip hlen
    constructor
    · intro hc
      cases hcl : cmd.data with
      | nil => simp [mainRun, if_neg hlen, hstrip, hcl]
      | cons c cs =>
        have hcc := hc c (by rw [show cmd.toList = c :: cs from hcl]; rfl)
        simp [mainRun, if_neg hlen, hstrip, hcl, if_neg hcc]
    · intro hlk
      rw [Option.isNone_iff_eq_none] at hlk
      cases hcl : cmd.data with
      | nil => simp [mainRun, if_neg hlen, hstrip, hcl]
      | cons c cs =>
        by_cases hpc : c = '-' ∨ c = '/'
        · simp [mainRun, if_neg hlen, hstrip, hcl, if_pos hpc, hlk]
        · simp [mainRun, if_neg hlen, hstrip, hcl, if_neg hpc]
  · by_cases hl : argv.length < 2
    · left; simp [mainRun, if_pos hl]
    · rcases hst : stripGlobals argv.tail with _ | ⟨g, rest⟩
      · left; simp [mainRun, if_neg hl, hst]
      · rcases rest with _ | ⟨cmd, tl⟩
        · left; simp [mainRun, if_neg hl, hst]
        · cases hcl : cmd.data with
          | nil => left; simp [mainRun, if_neg hl, hst, hcl]
          | cons c cs =>
            by_cases hpc : c = '-' ∨ c = '/'
            · rcases hlk : MajorOption.lookup (cmd.drop 1) with _ | hd
              · left; simp [mainRun, if_neg hl, hst, hcl, if_pos hpc, hlk]
              · right
                refine ⟨cmd.drop 1, ?_, ?_⟩
                · simp [mainRun, if_neg hl, hst, hcl, if_pos hpc, hlk]
                · rw [hlk]; rfl
            · left; simp [mainRun, if_neg hl, hst, hcl, if_neg hpc]

/-- Witness for C2: an unknown command and a bare invocation both yield the
usage outcome. -/
theorem c2_dispatcher_validation_witness :
    mainRun ["dsjob", "-bogus"] engOk = usageOut ∧ mainRun ["dsjob"] engOk = usageOut :=
  ⟨((c2_dispatcher_validation ["dsjob", "-bogus"] engOk).2.1
      ⟨none, none, none, none⟩ "-bogus" [] (by decide) (by decide)).2 (by decide),
   (c2_dispatcher_validation ["dsjob"] engOk).1 (Or.inl (by decide))⟩

/-- C4: whenever `main` dispatches to a handler, then regardless of the
handler's outcome its very last engine interaction is the query for the last
recorded error message, and that message is printed exactly when one is
present. -/
theorem c4_trailing_diagnostic :
    ∀ (argv : List String) (eng : Engine) (nm : String),
      (mainRun argv eng).invoked = some nm →
      (mainRun argv eng).events.getLast? = some Event.getLastErrorMsg ∧
      (mainRun argv eng).lastErrorMsgPrinted = eng.lastErrorMsg.isSome := by
  intro argv eng nm h
  by_cases hl : argv.length < 2
  · simp [mainRun, if_pos hl, usageOut] at h
  · rcases hst : stripGlobals argv.tail with _ | ⟨g, rest⟩
    · simp [mainRun, if_neg hl, hst, usageOut] at h
    · rcases rest with _ | ⟨cmd, tl⟩
      · simp [mainRun, if_neg hl, hst, usageOut] at h
      · cases hcl : cmd.data with
        | nil => simp [mainRun, if_neg hl, hst, hcl, usageOut] at h
        | cons c cs =>
          by_cases hpc : c = '-' ∨ c = '/'
          · rcases hlk : MajorOption.lookup (cmd.drop 1) with _ | hd
            · simp [mainRun, if_neg hl, hst, hcl, if_pos hpc, hlk, usageOut] at h
            · constructor
              · simp only [mainRun, if_neg hl, hst,
                  show cmd.toList = c :: cs from hcl, if_pos hpc, hlk]
                exact List.getLast?_concat _
              · simp [mainRun, if_neg hl, hst, hcl, if_pos hpc, hlk]
          · simp [mainRun, if_neg hl, hst, hcl, if_neg hpc, usageOut] at h

/-- Witness for C4 on a concrete dispatch. -/
theorem c4_trailing_diagnostic_witness :
    (mainRun ["dsjob", "-lprojects"] engOk).events.getLast? =
      some Event.getLastErrorMsg :=
  (c4_trailing_diagnostic ["dsjob", "-lprojects"] engOk "lprojects" (by decide)).1

/-! ## Claim C5: parameter marshalling -/

lemma noDigit_takeWhile {l : List Char} (h : ∀ c ∈ l, c.isDigit = false) :
    l.takeWhile Char.isDigit = [] := by
  cases l with
  | nil => rfl
  | cons c t =>
    have hc := h c (List.mem_cons_self c t)
    simp [List.takeWhile_cons, hc]

lemma noDigit_tail {l : List Char} (h : ∀ c ∈ l, c.isDigit = false) :
    ∀ c ∈ l.tail, c.isDigit = false :=
  fun c hc => h c ((List.tail_sublist l).subset hc)

lemma noDigit_dropWhile (p : Char → Bool) {l : List Char}
    (h : ∀ c ∈ l, c.isDigit = false) : ∀ c ∈ l.dropWhile p, c.isDigit = false :=
  fun c hc => h c ((List.dropWhile_sublist p).subset hc)

lemma atoi_no_digits (v : String) (h : ∀ c ∈ v.toList, c.isDigit = false) :
    atoi v = 0 := by
  have h0 := noDigit_dropWhile isSpaceC h
  have h1 := noDigit_tail h0
  unfold atoi
  dsimp only
  split_ifs <;>
    first
      | (rw [noDigit_takeWhile h1]; simp [natOfDigits])
      | (rw [noDigit_takeWhile h0]; simp [natOfDigits])

lemma atofQ_no_digits (v : String) (h : ∀ c ∈ v.toList, c.isDigit = false) :
    atofQ v = 0 := by
  have h0 := noDigit_dropWhile isSpaceC h
  have h1 := noDigit_tail h0
  have h2a := noDigit_dropWhile Char.isDigit h1
  have h2b := noDigit_dropWhile Char.isDigit h0
  have h3a := noDigit_tail h2a
  have h3b := noDigit_tail h2b
  unfold atofQ
  dsimp only
  split_ifs <;>
    simp only [noDigit_takeWhile h0, noDigit_takeWhile h1, noDigit_takeWhile h3a,
      noDigit_takeWhile h3b, natOfDigits, List.foldl_nil, List.length_nil] <;>
    norm_num

/-- C5: typed-parameter marshalling is driven by the declared type fetched
from the engine: Integer parses the raw text with `atoi` (so `"42"` gives 42
and digit-free input gives 0, with no error raised), Float parses with `atof`
(digit-free input gives 0), the six string-like types pass the text through
verbatim, and any unknown declared type code yields a String-typed value with
the raw text preserved verbatim. -/
theorem c5_param_marshalling :
    makeParamValue DSJ_PARAMTYPE_INTEGER "42" = DSPARAM.pInt 42 ∧
    (∀ v, makeParamValue DSJ_PARAMTYPE_INTEGER v = DSPARAM.pInt (atoi v)) ∧
    (∀ v, makeParamValue DSJ_PARAMTYPE_FLOAT v = DSPARAM.pFloat (atofQ v)) ∧
    (∀ v, (∀ c ∈ v.toList, c.isDigit = false) → atoi v = 0 ∧ atofQ v = 0) ∧
    (∀ v, makeParamValue DSJ_PARAMTYPE_STRING v = DSPARAM.pString v) ∧
    (∀ v, makeParamValue DSJ_PARAMTYPE_ENCRYPTED v = DSPARAM.pEncrypt v) ∧
    (∀ v, makeParamValue DSJ_PARAMTYPE_PATHNAME v = DSPARAM.pPath v) ∧
    (∀ v, makeParamValue DSJ_PARAMTYPE_LIST v = DSPARAM.pListValue v) ∧
    (∀ v, makeParamValue DSJ_PARAMTYPE_DATE v = DSPARAM.pDate v) ∧
    (∀ v, makeParamValue DSJ_PARAMTYPE_TIME v = DSPARAM.pTime v) ∧
    (∀ ty v, ty ∉ ([DSJ_PARAMTYPE_STRING, DSJ_PARAMTYPE_ENCRYPTED,
        DSJ_PARAMTYPE_INTEGER, DSJ_PARAMTYPE_FLOAT, DSJ_PARAMTYPE_PATHNAME,
        DSJ_PARAMTYPE_LIST, DSJ_PARAMTYPE_DATE, DSJ_PARAMTYPE_TIME] : List Int) →
      makeParamValue ty v = DSPARAM.pString v) := by
  refine ⟨by decide, fun v => rfl, fun v => rfl,
    fun v h => ⟨atoi_no_digits v h, atofQ_no_digits v h⟩,
    fun v => rfl, fun v => rfl, fun v => rfl, fun v => rfl, fun v => rfl, fun v => rfl,
    ?_⟩
  intro ty v hmem
  simp only [List.mem_cons, List.not_mem_nil, or_false, not_or] at hmem
  obtain ⟨n1, n2, n3, n4, n5, n6, n7, n8⟩ := hmem
  simp [makeParamValue, n1, n2, n3, n4, n5, n6, n7, n8]

/-- Witness for C5: digit-free inputs give 0/0.0 and an unknown type code 99
marshals as a verbatim String. -/
theorem c5_param_marshalling_witness :
    (atoi "abc" = 0 ∧ atofQ "abc" = 0) ∧
    makeParamValue 99 "text" = DSPARAM.pString "text" :=
  ⟨c5_param_marshalling.2.2.2.1 "abc" (by decide),
   c5_param_marshalling.2.2.2.2.2.2.2.2.2.2 99 "text" (by decide)⟩

/-! ## Claim C7: log cursor termination -/

lemma logSumLoop_spec (eng : Engine) (l : List DSLOGEVENT) :
    (logSumLoop eng l).1 = eng.logEndStatus ∧
    (logSumLoop eng l).2.count Event.item = l.length ∧
    ∀ (co : Option Int) (s : String), Event.errorReport co s ∉ (logSumLoop eng l).2 := by
  induction l with
  | nil =>
    refine ⟨rfl, rfl, ?_⟩
    intro co s hm
    exact absurd hm (List.not_mem_nil _)
  | cons hd tl ih =>
    obtain ⟨ih1, ih2, ih3⟩ := ih
    dsimp only [logSumLoop]
    refine ⟨ih1, ?_, ?_⟩
    · simp [List.count_cons, ih2]
    · intro co s hm
      simp only [List.mem_cons] at hm
      rcases hm with h | h | h
      · exact Event.noConfusion h
      · exact Event.noConfusion h
      · exact ih3 co s h

/-- C7: with the engine yielding a finite stream of log entries followed by a
terminal status, `logsum` iteration over N entries ending in `DSJE_NOMORE`
formats exactly N items, returns success and reports no error — also when the
very first call returns `DSJE_NOMORE` (zero entries); any other terminal
status is reported with its code and propagated as the command's result. -/
theorem c7_log_cursor (eng : Engine) (args : List String) (ty maxN : Int)
    (p j : String)
    (hp : parseLogSumLoop args DSJ_LOGANY 0 = some (ty, maxN, [p, j]))
    (ho1 : eng.openProjectOk = true) (ho2 : eng.openJobOk = true)
    (hend : eng.logEndStatus ≠ DSJE_NOERROR) :
    (eng.logEndStatus = DSJE_NOMORE →
      (jobLogSum args eng).1 = DSJE_NOERROR ∧
      (jobLogSum args eng).2.count Event.item = eng.logStream.length ∧
      ∀ (co : Option Int) (s : String),
        Event.errorReport co s ∉ (jobLogSum args eng).2) ∧
    (eng.logStream = [] ∧ eng.logEndStatus = DSJE_NOMORE →
      (jobLogSum args eng).1 = DSJE_NOERROR ∧
      (jobLogSum args eng).2.count Event.item = 0) ∧
    (eng.logEndStatus ≠ DSJE_NOMORE →
      (jobLogSum args eng).1 = eng.logEndStatus ∧
      Event.errorReport (some eng.logEndStatus) "getting log summary" ∈
        (jobLogSum args eng).2) := by
  obtain ⟨hr1, hr2, hr3⟩ := logSumLoop_spec eng eng.logStream
  refine ⟨?_, ?_, ?_⟩
  · intro hnm
    refine ⟨?_, ?_, ?_⟩
    · simp [jobLogSum, hp, withProjectJob, ho1, ho2, hr1, hnm]
    · simp [jobLogSum, hp, withProjectJob, ho1, ho2, hr1, hnm,
        List.count_append, List.count_cons, hr2]
    · intro co s hm
      simp only [jobLogSum, hp, withProjectJob, ho1, ho2, hr1, hnm,
        Bool.true_eq_false, if_false, List.mem_append, List.mem_cons,
        List.not_mem_nil, or_false, if_pos] at hm
      rcases hm with ((h | h) | (h | h)) | (h | h)
      · exact Event.noConfusion h
      · exact Event.noConfusion h
      · exact Event.noConfusion h
      · exact hr3 co s h
      · exact Event.noConfusion h
      · exact Event.noConfusion h
  · rintro ⟨hs, hnm⟩
    constructor
    · simp [jobLogSum, hp, withProjectJob, ho1, ho2, hr1, hnm]
    · simp [jobLogSum, hp, withProjectJob, ho1, ho2, hr1, hnm, hs, logSumLoop,
        List.count_append, List.count_cons]
  · intro hne
    constructor
    · simp [jobLogSum, hp, withProjectJob, ho1, ho2, hr1, hne]
    · simp [jobLogSum, hp, withProjectJob, ho1, ho2, hr1, hne,
        List.mem_append, List.mem_cons]

/-- Concrete engine for the C7 witness: two log entries then `DSJE_NOMORE`. -/
def engC7 : Engine :=
  { engOk with logStream := [⟨1, 1, "a"⟩, ⟨2, 3, "b"⟩], logEndStatus := DSJE_NOMORE }

/-- Witness for C7: two yielded entries give two items and success. -/
theorem c7_log_cursor_witness :
    (jobLogSum ["p", "j"] engC7).1 = DSJE_NOERROR ∧
    (jobLogSum ["p", "j"] engC7).2.count Event.item = 2 := by
  have h := (c7_log_cursor engC7 ["p", "j"] DSJ_LOGANY 0 "p" "j"
    (by decide) rfl rfl (by decide)).1 (by decide)
  exact ⟨h.1, h.2.1.trans (by decide)⟩

/-! ## Claim C8: engine-error reporting and (non-)propagation -/

/-- Concrete engine for the C8 counterexample: the `DSJ_JOBSTATUS` query fails
with -7, every other call succeeds. -/
def engC8 : Engine :=
  { engOk with jobInfoStatus := fun c => if c = DSJ_JOBSTATUS then -7 else 0 }

/-- C8 counterexample: in `jobJobInfo` an engine call fails with -7 and the
failure is reported, yet the handler returns `DSJE_NOERROR` — the failed
status is NOT propagated as the command's overall result, because each later
query overwrites the shared `status` variable. -/
theorem c8_counterexample :
    (jobJobInfo ["p", "j"] engC8).1 = DSJE_NOERROR ∧
    Event.getJobInfo DSJ_JOBSTATUS (-7) ∈ (jobJobInfo ["p", "j"] engC8).2 ∧
    Event.errorReport (some (-7)) "getting job status" ∈ (jobJobInfo ["p", "j"] engC8).2 ∧
    (-7 : Int) ≠ DSJE_NOERROR := by decide

/-- C8 (amended): every non-success engine status in `jobJobInfo` and
`jobStageInfo` is reported with its numeric code and a contextual message
(apart from the softened `DSJE_NOT_AVAILABLE` cases), but the handler's
overall result is only the softened status of its final engine query; an
earlier failure followed by later successes is not propagated. -/
theorem c8_engine_error_reporting :
    ∀ (eng : Engine) (p j stg : String),
      eng.openProjectOk = true → eng.openJobOk = true →
      ((eng.jobInfoStatus DSJ_JOBSTATUS ≠ DSJE_NOERROR →
        Event.errorReport (some (eng.jobInfoStatus DSJ_JOBSTATUS))
          "getting job status" ∈ (jobJobInfo [p, j] eng).2) ∧
      (eng.jobInfoStatus DSJ_JOBCONTROLLER ≠ DSJE_NOT_AVAILABLE →
        eng.jobInfoStatus DSJ_JOBCONTROLLER ≠ DSJE_NOERROR →
        Event.errorReport (some (eng.jobInfoStatus DSJ_JOBCONTROLLER))
          "getting job controller" ∈ (jobJobInfo [p, j] eng).2) ∧
      (eng.jobInfoStatus DSJ_JOBSTARTTIMESTAMP ≠ DSJE_NOT_AVAILABLE →
        eng.jobInfoStatus DSJ_JOBSTARTTIMESTAMP ≠ DSJE_NOERROR →
        Event.errorReport (some (eng.jobInfoStatus DSJ_JOBSTARTTIMESTAMP))
          "getting job start time" ∈ (jobJobInfo [p, j] eng).2) ∧
      (eng.jobInfoStatus DSJ_JOBWAVENO ≠ DSJE_NOERROR →
        Event.errorReport (some (eng.jobInfoStatus DSJ_JOBWAVENO))
          "getting job wave number" ∈ (jobJobInfo [p, j] eng).2) ∧
      (eng.jobInfoStatus DSJ_USERSTATUS ≠ DSJE_NOT_AVAILABLE →
        eng.jobInfoStatus DSJ_USERSTATUS ≠ DSJE_NOERROR →
        Event.errorReport (some (eng.jobInfoStatus DSJ_USERSTATUS))
          "getting job user status" ∈ (jobJobInfo [p, j] eng).2) ∧
      ((jobJobInfo [p, j] eng).1 =
        (if eng.jobInfoStatus DSJ_USERSTATUS = DSJE_NOT_AVAILABLE then DSJE_NOERROR
         else eng.jobInfoStatus DSJ_USERSTATUS)) ∧
      (eng.stageInfoStatus DSJ_STAGETYPE ≠ DSJE_NOERROR →
        Event.errorReport (some (eng.stageInfoStatus DSJ_STAGETYPE))
          "getting stage type" ∈ (jobStageInfo [p, j, stg] eng).2) ∧
      (eng.stageInfoStatus DSJ_STAGEINROWNUM ≠ DSJE_NOERROR →
        Event.errorReport (some (eng.stageInfoStatus DSJ_STAGEINROWNUM))
          "getting stage row number" ∈ (jobStageInfo [p, j, stg] eng).2) ∧
      (eng.stageInfoStatus DSJ_STAGELASTERR ≠ DSJE_NOT_AVAILABLE →
        eng.stageInfoStatus DSJ_STAGELASTERR ≠ DSJE_NOERROR →
        Event.errorReport (some (eng.stageInfoStatus DSJ_STAGELASTERR))
          "getting stage last error" ∈ (jobStageInfo [p, j, stg] eng).2) ∧
      ((jobStageInfo [p, j, stg] eng).1 =
        (if eng.stageInfoStatus DSJ_STAGELASTERR = DSJE_NOT_AVAILABLE then DSJE_NOERROR
         else eng.stageInfoStatus DSJ_STAGELASTERR))) := by
  intro eng p j stg ho1 ho2
  refine ⟨?_, ?_, ?_, ?_, ?_, ?_, ?_, ?_, ?_, ?_⟩
  · intro h1
    simp [jobJobInfo, withProjectJob, ho1, ho2, h1, List.mem_append, List.mem_cons]
  · intro h1 h2
    simp [jobJobInfo, withProjectJob, ho1, ho2, h1, h2, List.mem_append, List.mem_cons]
  · intro h1 h2
    simp [jobJobInfo, withProjectJob, ho1, ho2, h1, h2, List.mem_append, List.mem_cons]
  · intro h1
    simp [jobJobInfo, withProjectJob, ho1, ho2, h1, List.mem_append, List.mem_cons]
  · intro h1 h2
    simp [jobJobInfo, withProjectJob, ho1, ho2, h1, h2, List.mem_append, List.mem_cons]
  · simp [jobJobInfo, withProjectJob, ho1, ho2]
  · intro h1
    simp [jobStageInfo, withProjectJob, ho1, ho2, h1, List.mem_append, List.mem_cons]
  · intro h1
    simp [jobStageInfo, withProjectJob, ho1, ho2, h1, List.mem_append, List.mem_cons]
  · intro h1 h2
    simp [jobStageInfo, withProjectJob, ho1, ho2, h1, h2, List.mem_append, List.mem_cons]
  · simp [jobStageInfo, withProjectJob, ho1, ho2]

/-- Witness for the amended C8 at the counterexample engine. -/
theorem c8_engine_error_reporting_witness :
    Event.errorReport (some (-7)) "getting job status" ∈ (jobJobInfo ["p", "j"] engC8).2 ∧
    (jobJobInfo ["p", "j"] engC8).1 = DSJE_NOERROR := by
  have h := c8_engine_error_reporting engC8 "p" "j" "stg" rfl rfl
  exact ⟨h.1 (by decide), (h.2.2.2.2.2.1).trans (by decide)⟩

/-! ## Claim C9: `-warn -5` is accepted but the limit is never forwarded -/

/-- A `DSSetJobLimit` engine call. -/
def isSetJobLimit : Event → Bool
  | Event.setJobLimit _ _ _ => true
  | _ => false

/-- C9 counterexample: `run -warn -5 proj job` passes validation with the
parsed warning limit -5 (the numeric parse does not validate the sign), the
run succeeds — but the trace contains NO `DSSetJobLimit` call at all: the
value -5 is not forwarded to the engine, because the call is guarded by
`warningLimit >= 0` (dsjob.c:282). -/
theorem c9_counterexample :
    parseRun ["-warn", "-5", "proj", "job"] =
      some ⟨DSJ_RUNNORMAL, -5, 0, [], false, "proj", "job"⟩ ∧
    (jobRun ["-warn", "-5", "proj", "job"] engOk).1 = DSJE_NOERROR ∧
    (jobRun ["-warn", "-5", "proj", "job"] engOk).2.all
      (fun e => !isSetJobLimit e) = true := by decide

lemma c9_business_trace (eng : Engine) :
    (runBusiness eng ⟨DSJ_RUNNORMAL, -5, 0, [], false, "proj", "job"⟩).2 =
      Event.runJob DSJ_RUNNORMAL eng.runStatus ::
        (if eng.runStatus = DSJE_NOERROR then []
         else [Event.errorReport none "running job"]) := by
  by_cases hrs : eng.runStatus = DSJE_NOERROR <;> simp [runBusiness, runParams, hrs]

/-- C9 (amended): `run -warn -5` is accepted syntactically, with the warning
limit parsed as -5 and no validation error; but because the engine call is
made only when the parsed limit is non-negative, no warning-limit (indeed no
job-limit) call reaches the engine under any engine behaviour — the negative
value is silently dropped rather than forwarded. -/
theorem c9_warn_negative_not_forwarded :
    parseRun ["-warn", "-5", "proj", "job"] =
      some ⟨DSJ_RUNNORMAL, -5, 0, [], false, "proj", "job"⟩ ∧
    ∀ (eng : Engine), ∀ e ∈ (jobRun ["-warn", "-5", "proj", "job"] eng).2,
      isSetJobLimit e = false := by
  have hpa : parseRun ["-warn", "-5", "proj", "job"] =
      some ⟨DSJ_RUNNORMAL, -5, 0, [], false, "proj", "job"⟩ := by decide
  refine ⟨hpa, ?_⟩
  intro eng e he
  have hall : (jobRun ["-warn", "-5", "proj", "job"] eng).2.all
      (fun e => !isSetJobLimit e) = true := by
    simp only [jobRun, hpa]
    split_ifs
    · rfl
    · rfl
    · rfl
    · rw [c9_business_trace]
      split_ifs <;> rfl
  have hb := List.all_eq_true.mp hall e he
  simpa using hb

/-! ## Claim C10: the `-param` array index and `MAX_PARAMS` -/

lemma parseRunLoop_inv :
    ∀ (n : Nat) (args : List String), args.length ≤ n →
      ∀ (acc res : RunAcc) (rest : List String),
        parseRunLoop args acc = some (res, rest) →
        acc.params.map Prod.fst = List.range acc.nParams →
        acc.nParams = acc.params.length →
        res.params.map Prod.fst = List.range res.nParams ∧
        res.nParams = res.params.length := by
  intro n
  induction n with
  | zero =>
    intro args hlen acc res rest h hi1 hi2
    have hargs : args = [] := List.eq_nil_of_length_eq_zero (Nat.le_zero.mp hlen)
    subst hargs
    simp only [parseRunLoop, Option.some.injEq, Prod.mk.injEq] at h
    obtain ⟨rfl, rfl⟩ := h
    exact ⟨hi1, hi2⟩
  | succ n ih =>
    intro args hlen acc res rest h hi1 hi2
    cases args with
    | nil =>
      simp only [parseRunLoop, Option.some.injEq, Prod.mk.injEq] at h
      obtain ⟨rfl, rfl⟩ := h
      exact ⟨hi1, hi2⟩
    | cons a args1 =>
      have hlen1 : args1.length ≤ n := by
        simp only [List.length_cons] at hlen; omega
      rw [parseRunLoop.eq_def] at h
      dsimp only at h
      by_cases h1 : isOptToken a = false
      · rw [if_pos h1] at h
        simp only [Option.some.injEq, Prod.mk.injEq] at h
        obtain ⟨rfl, rfl⟩ := h
        exact ⟨hi1, hi2⟩
      · rw [if_neg h1] at h
        by_cases h2 : a.drop 1 = "wait"
        · rw [if_pos h2] at h
          exact ih args1 hlen1 _ res rest h hi1 hi2
        · rw [if_neg h2] at h
          cases args1 with
          | nil =>
            dsimp only at h
            exact absurd h (by simp)
          | cons arg rest2 =>
            dsimp only at h
            have hlen2 : rest2.length ≤ n := by
              simp only [List.length_cons] at hlen; omega
            by_cases h3 : a.drop 1 = "mode"
            · rw [if_pos h3] at h
              by_cases hm1 : arg = "NORMAL"
              · rw [if_pos hm1] at h
                exact ih rest2 hlen2 _ res rest h hi1 hi2
              · rw [if_neg hm1] at h
                by_cases hm2 : arg = "RESET"
                · rw [if_pos hm2] at h
                  exact ih rest2 hlen2 _ res rest h hi1 hi2
                · rw [if_neg hm2] at h
                  by_cases hm3 : arg = "VALIDATE"
                  · rw [if_pos hm3] at h
                    exact ih rest2 hlen2 _ res rest h hi1 hi2
                  · rw [if_neg hm3] at h
                    exact absurd h (by simp)
            · rw [if_neg h3] at h
              by_cases h4 : a.drop 1 = "param"
              · rw [if_pos h4] at h
                by_cases h5 : arg.toList.contains '=' = true
                · rw [if_pos h5] at h
                  refine ih rest2 hlen2 _ res rest h ?_ ?_
                  · simp [List.map_append, hi1, List.range_succ]
                  · simp [hi2]
                · rw [if_neg h5] at h
                  exact absurd h (by simp)
              · rw [if_neg h4] at h
                by_cases h6 : a.drop 1 = "warn"
                · rw [if_pos h6] at h
                  exact ih rest2 hlen2 _ res rest h hi1 hi2
                · rw [if_neg h6] at h
                  by_cases h7 : a.drop 1 = "rows"
                  · rw [if_pos h7] at h
                    exact ih rest2 hlen2 _ res rest h hi1 hi2
                  · rw [if_neg h7] at h
                    exact absurd h (by simp)

/-- Eleven `-param` occurrences followed by the two positionals. -/
def c10argv : List String :=
  ["-param", "p0=v", "-param", "p1=v", "-param", "p2=v", "-param", "p3=v",
   "-param", "p4=v", "-param", "p5=v", "-param", "p6=v", "-param", "p7=v",
   "-param", "p8=v", "-param", "p9=v", "-param", "p10=v", "proj", "job"]

/-- The parse result of `c10argv`: the k-th stored parameter was written to
array index k, so the eleventh is written to index 10 = `MAX_PARAMS`. -/
def c10args : RunArgs :=
  ⟨DSJ_RUNNORMAL, -1, 0,
   [(0, "p0=v"), (1, "p1=v"), (2, "p2=v"), (3, "p3=v"), (4, "p4=v"), (5, "p5=v"),
    (6, "p6=v"), (7, "p7=v"), (8, "p8=v"), (9, "p9=v"), (10, "p10=v")],
   false, "proj", "job"⟩

lemma parseRunLoop_param_step (arg : String) (rest : List String) (acc : RunAcc)
    (hc : arg.toList.contains '=' = true) :
    parseRunLoop ("-param" :: arg :: rest) acc =
      parseRunLoop rest { acc with params := acc.params ++ [(acc.nParams, arg)],
                                   nParams := acc.nParams + 1 } := by
  rw [parseRunLoop.eq_def]
  dsimp only
  rw [if_neg (by decide), if_neg (by decide), if_neg (by decide), if_pos (by decide),
      if_pos hc]

lemma parseRunLoop_stop (p : String) (rest : List String) (acc : RunAcc)
    (hp : isOptToken p = false) :
    parseRunLoop (p :: rest) acc = some (acc, p :: rest) := by
  rw [parseRunLoop.eq_def]
  dsimp only
  rw [if_pos hp]

lemma c10_parse_eq : parseRun c10argv = some c10args := by
  unfold parseRun c10argv
  rw [parseRunLoop_param_step _ _ _ (by decide), parseRunLoop_param_step _ _ _ (by decide),
      parseRunLoop_param_step _ _ _ (by decide), parseRunLoop_param_step _ _ _ (by decide),
      parseRunLoop_param_step _ _ _ (by decide), parseRunLoop_param_step _ _ _ (by decide),
      parseRunLoop_param_step _ _ _ (by decide), parseRunLoop_param_step _ _ _ (by decide),
      parseRunLoop_param_step _ _ _ (by decide), parseRunLoop_param_step _ _ _ (by decide),
      parseRunLoop_param_step _ _ _ (by decide),
      parseRunLoop_stop _ _ _ (by decide)]
  rfl

/-- C10: `jobRun` stores the k-th accepted `-param` argument at array index k
with no bounds check against `MAX_PARAMS` (= 10), so every stored index stays
inside the array iff at most `MAX_PARAMS` occurrences are supplied; the
concrete vector with eleven occurrences is accepted by validation and its
eleventh parameter carries write index 10, one past the last valid index. -/
theorem c10_param_overflow :
    (∀ (args : List String) (a : RunArgs), parseRun args = some a →
      a.params.map Prod.fst = List.range a.params.length ∧
      ((∀ ix ∈ a.params.map Prod.fst, ix < MAX_PARAMS) ↔
        a.params.length ≤ MAX_PARAMS)) ∧
    parseRun c10argv = some c10args ∧
    c10args.params.length = 11 ∧
    (10, "p10=v") ∈ c10args.params ∧ ¬ ((10 : Nat) < MAX_PARAMS) := by
  constructor
  · intro args a h
    unfold parseRun at h
    rcases hres : parseRunLoop args {} with _ | ⟨acc, rest⟩
    · rw [hres] at h
      exact absurd h (by simp)
    · rw [hres] at h
      have hinv := parseRunLoop_inv args.length args le_rfl {} acc rest hres rfl rfl
      rcases rest with _ | ⟨p, _ | ⟨q, _ | ⟨r, rest3⟩⟩⟩
      · exact absurd h (by simp)
      · exact absurd h (by simp)
      · simp only [Option.some.injEq] at h
        subst h
        dsimp only
        have hmap : acc.params.map Prod.fst = List.range acc.params.length := by
          rw [hinv.1, hinv.2]
        refine ⟨hmap, ?_, ?_⟩
        · intro hall
          by_contra hgt
          have h10 : (MAX_PARAMS : Nat) ∈ acc.params.map Prod.fst := by
            rw [hmap]
            exact List.mem_range.mpr (by omega)
          have := hall MAX_PARAMS h10
          omega
        · intro hle ix hix
          rw [hmap] at hix
          have := List.mem_range.mp hix
          omega
      · exact absurd h (by simp)
  · exact ⟨c10_parse_eq, by decide, by decide, by decide⟩

/-- Witness for C10: the invariant applied to the eleven-parameter vector. -/
theorem c10_param_overflow_witness :
    c10args.params.map Prod.fst = List.range c10args.params.length :=
  (c10_param_overflow.1 c10argv c10args c10_parse_eq).1

/-! ## Claim C6: per-parameter processing order and first-failure stop -/

/-- Argument vector made of `-param` pairs followed by the two positionals. -/
def runParamArgv : List String → String → String → List String
  | [], p, j => [p, j]
  | x :: xs, p, j => "-param" :: x :: runParamArgv xs p j

/-- Expected trace of a run of successfully processed parameters. -/
def goodEvs (eng : Engine) : List String → List Event
  | [] => []
  | p :: rest =>
    Event.getParamInfo (pName p) DSJE_NOERROR ::
    Event.setParamCall (pName p)
      (makeParamValue (eng.paramInfoType (pName p)) (pValue p)) DSJE_NOERROR ::
    goodEvs eng rest

/-- The stored parameters with their write indices, starting at `n`. -/
def indexedFrom (n : Nat) : List String → List (Nat × String)
  | [] => []
  | x :: xs => (n, x) :: indexedFrom (n + 1) xs

lemma parseRunLoop_params (ps : List String) :
    ∀ (acc : RunAcc) (proj job : String),
      (∀ p ∈ ps, p.toList.contains '=' = true) →
      isOptToken proj = false →
      parseRunLoop (runParamArgv ps proj job) acc =
        some ({ acc with params := acc.params ++ indexedFrom acc.nParams ps,
                         nParams := acc.nParams + ps.length }, [proj, job]) := by
  induction ps with
  | nil =>
    intro acc proj job h1 h2
    dsimp only [runParamArgv, indexedFrom]
    rw [parseRunLoop_stop _ _ _ h2]
    simp
  | cons x xs ih =>
    intro acc proj job h1 h2
    dsimp only [runParamArgv, indexedFrom]
    rw [parseRunLoop_param_step _ _ _ (h1 x (by simp))]
    rw [ih _ proj job (fun p hp => h1 p (by simp [hp])) h2]
    have h3 : acc.nParams + 1 + xs.length = acc.nParams + (xs.length + 1) := by omega
    rw [h3, List.append_assoc, List.singleton_append]
    simp [List.length_cons]

lemma runParams_good_fail (eng : Engine) (bad : String)
    (hbad : eng.paramInfoStatus (pName bad) ≠ DSJE_NOERROR) :
    ∀ (good : List String) (n : Nat) (rest : List String),
      (∀ p ∈ good, eng.paramInfoStatus (pName p) = DSJE_NOERROR ∧
        eng.setParamStatus (pName p) = DSJE_NOERROR) →
      runParams eng (indexedFrom n (good ++ bad :: rest)) =
        (eng.paramInfoStatus (pName bad),
         goodEvs eng good ++
           [Event.getParamInfo (pName bad) (eng.paramInfoStatus (pName bad)),
            Event.errorReport (some (eng.paramInfoStatus (pName bad)))
              "getting information for parameter"]) := by
  intro good
  induction good with
  | nil =>
    intro n rest _
    dsimp only [List.nil_append, indexedFrom, runParams, goodEvs]
    simp [setParam, hbad]
  | cons g gs ih =>
    intro n rest hg
    obtain ⟨hg1, hg2⟩ := hg g (by simp)
    have hsp : setParam eng g =
        (DSJE_NOERROR,
         [Event.getParamInfo (pName g) DSJE_NOERROR,
          Event.setParamCall (pName g)
            (makeParamValue (eng.paramInfoType (pName g)) (pValue g)) DSJE_NOERROR]) := by
      simp [setParam, hg1, hg2]
    dsimp only [List.cons_append, indexedFrom, runParams]
    rw [hsp]
    rw [if_pos rfl]
    rw [ih (n + 1) rest (fun p hp => hg p (by simp [hp]))]
    simp [goodEvs, List.append_assoc]

lemma goodEvs_setParamCall (eng : Engine) (l : List String) (nm : String)
    (d : DSPARAM) (st : Int) :
    Event.setParamCall nm d st ∈ goodEvs eng l → ∃ p ∈ l, pName p = nm := by
  induction l with
  | nil =>
    intro h
    exact absurd h (List.not_mem_nil _)
  | cons g gs ih =>
    intro h
    simp only [goodEvs, List.mem_cons] at h
    rcases h with h | h | h
    · exact Event.noConfusion h
    · exact ⟨g, by simp, (Event.setParamCall.inj h).1.symm⟩
    · obtain ⟨p, hp, he⟩ := ih h
      exact ⟨p, by simp [hp], he⟩

/-- C6: with every earlier parameter succeeding and the engine's declared-type
query failing for the parameter `bad`, the `run` handler invokes `setParam`
once per `-param` occurrence in the order given, the failing query is reported
with its code and no set of that value is attempted, processing stops there
(no later parameter is touched), and the failure is the handler's result. -/
theorem c6_param_processing :
    ∀ (eng : Engine) (good : List String) (bad : String) (rest : List String)
      (proj job : String),
      (∀ p ∈ good ++ bad :: rest, p.toList.contains '=' = true) →
      isOptToken proj = false →
      eng.openProjectOk = true → eng.openJobOk = true →
      eng.lockStatus = DSJE_NOERROR →
      (∀ p ∈ good, eng.paramInfoStatus (pName p) = DSJE_NOERROR ∧
        eng.setParamStatus (pName p) = DSJE_NOERROR) →
      eng.paramInfoStatus (pName bad) ≠ DSJE_NOERROR →
      jobRun (runParamArgv (good ++ bad :: rest) proj job) eng =
        (eng.paramInfoStatus (pName bad),
         [Event.openProject true, Event.openJob true, Event.lockJob DSJE_NOERROR] ++
         (goodEvs eng good ++
          [Event.getParamInfo (pName bad) (eng.paramInfoStatus (pName bad)),
           Event.errorReport (some (eng.paramInfoStatus (pName bad)))
             "getting information for parameter"]) ++
         [Event.unlockJob, Event.closeJob, Event.closeProject]) ∧
      (∀ (d : DSPARAM) (st : Int),
        Event.setParamCall (pName bad) d st ∈
          (jobRun (runParamArgv (good ++ bad :: rest) proj job) eng).2 →
        ∃ p ∈ good, pName p = pName bad) := by
  intro eng good bad rest proj job hall hproj ho1 ho2 hlock hgood hbad
  have hparse : parseRun (runParamArgv (good ++ bad :: rest) proj job) =
      some ⟨DSJ_RUNNORMAL, -1, 0, indexedFrom 0 (good ++ bad :: rest),
            false, proj, job⟩ := by
    unfold parseRun
    rw [parseRunLoop_params _ {} proj job hall hproj]
    rfl
  have hbz : runBusiness eng
      ⟨DSJ_RUNNORMAL, -1, 0, indexedFrom 0 (good ++ bad :: rest), false, proj, job⟩ =
      (eng.paramInfoStatus (pName bad),
       goodEvs eng good ++
         [Event.getParamInfo (pName bad) (eng.paramInfoStatus (pName bad)),
          Event.errorReport (some (eng.paramInfoStatus (pName bad)))
            "getting information for parameter"]) := by
    simp [runBusiness, runParams_good_fail eng bad hbad good 0 rest hgood, hbad]
  have hmain : jobRun (runParamArgv (good ++ bad :: rest) proj job) eng =
      (eng.paramInfoStatus (pName bad),
       [Event.openProject true, Event.openJob true, Event.lockJob DSJE_NOERROR] ++
       (goodEvs eng good ++
        [Event.getParamInfo (pName bad) (eng.paramInfoStatus (pName bad)),
         Event.errorReport (some (eng.paramInfoStatus (pName bad)))
           "getting information for parameter"]) ++
       [Event.unlockJob, Event.closeJob, Event.closeProject]) := by
    simp only [jobRun, hparse]
    rw [if_neg (by simp [ho1]), if_neg (by simp [ho2]), if_neg (by simp [hlock])]
    rw [hbz]
  refine ⟨hmain, ?_⟩
  intro d st hmem
  rw [hmain] at hmem
  simp only [List.mem_append, List.mem_cons, List.not_mem_nil, or_false] at hmem
  rcases hmem with ((h | h | h) | (h | h | h)) | (h | h | h)
  · exact Event.noConfusion h
  · exact Event.noConfusion h
  · exact Event.noConfusion h
  · exact goodEvs_setParamCall eng good (pName bad) d st h
  · exact Event.noConfusion h
  · exact Event.noConfusion h
  · exact Event.noConfusion h
  · exact Event.noConfusion h
  · exact Event.noConfusion h

/-- Concrete engine for the C6 witness: the declared-type query fails for
parameter `b` only. -/
def engC6 : Engine :=
  { engOk with paramInfoStatus := fun n => if n = "b" then -3 else 0 }

/-- Witness for C6: with parameters `a=1`, `b=2`, `c=3` and the query for `b`
failing with -3, the run handler stops at `b` and returns -3. -/
theorem c6_param_processing_witness :
    (jobRun (runParamArgv ["a=1", "b=2", "c=3"] "p" "j") engC6).1 = -3 := by
  have h := (c6_param_processing engC6 ["a=1"] "b=2" ["c=3"] "p" "j"
    (by decide) (by decide) rfl rfl rfl (by decide) (by decide)).1
  have h2 := congrArg Prod.fst h
  exact h2.trans (by decide)

/-! ## Claim C3: fixed-order global connection options -/

/-- The token sequence contributed by an in-order subset of the four global
options. -/
def globalToks (d s u p : Option String) : List String :=
  (match d with | some v => ["-domain", v] | none => []) ++
  (match s with | some v => ["-server", v] | none => []) ++
  (match u with | some v => ["-user", v] | none => []) ++
  (match p with | some v => ["-password", v] | none => [])

/-- C3: the dispatcher accepts the four global options exactly as an in-order
subset of `domain, server, user, password`, each an exact flag token followed
by one value token, recovering precisely the given subset and leaving the
remainder untouched; concretely, `-domain d -server host -run proj job`
dispatches to the `run` handler while the reordered
`-server host -domain d -run proj job` is rejected with the usage outcome. -/
theorem c3_global_option_order :
    (∀ (d s u p : Option String) (r : String) (rs : List String),
      r ≠ "-domain" → r ≠ "-server" → r ≠ "-user" → r ≠ "-password" →
      stripGlobals (globalToks d s u p ++ r :: rs) =
        some (⟨d, s, u, p⟩, r :: rs)) ∧
    (mainRun ["dsjob", "-domain", "d", "-server", "host", "-run", "proj", "job"]
        engOk).invoked = some "run" ∧
    mainRun ["dsjob", "-server", "host", "-domain", "d", "-run", "proj", "job"]
        engOk = usageOut := by
  refine ⟨?_, by decide, by decide⟩
  intro d s u p r rs h1 h2 h3 h4
  cases d <;> cases s <;> cases u <;> cases p <;>
    simp [stripGlobals, globalToks, grabFlag, h1, h2, h3, h4]

/-- Witness for C3: domain and server given, user and password absent. -/
theorem c3_global_option_order_witness :
    stripGlobals (globalToks (some "d") (some "host") none none ++ ["-run", "x"]) =
      some (⟨some "d", some "host", none, none⟩, ["-run", "x"]) :=
  c3_global_option_order.1 (some "d") (some "host") none none "-run" ["x"]
    (by decide) (by decide) (by decide) (by decide)

/-- Witness for the amended C9: the run call in the all-success trace is not
a job-limit call. -/
theorem c9_warn_negative_not_forwarded_witness :
    isSetJobLimit (Event.runJob DSJ_RUNNORMAL DSJE_NOERROR) = false :=
  c9_warn_negative_not_forwarded.2 engOk
    (Event.runJob DSJ_RUNNORMAL DSJE_NOERROR) (by decide)
